import Mathlib

/-!
# Verification of the distributed web-crawling and indexing pipeline

Shallow embedding of the pipeline's components:

* the crawler's URL normalisation (`normalize_url`, from
  `src/crawler/crawler_node.py`), including a model of Python's
  `urllib.parse.urlparse` restricted to the components that function reads
  (`scheme`, `netloc`, `path` after parameter splitting, `query`);
* the crawler's link-batch emission (`publish_new_urls_to_master`) and its
  per-task message handler (`process_crawl_task`);
* the master's job expansion (`publish_crawl_task`, `handle_new_job`, from
  `src/master/master_node.py`);
* the progress aggregator's state and handlers (`update_summary_stats`,
  the health and progress subscription callbacks, `check_stalled_tasks`,
  from `src/UI/main.py`).

External effects (bus publishes, blob reads/writes, HTTP fetches) are made
explicit: fallible operations take their outcomes as parameters and handlers
return the list of messages they published together with the final
ack/nack decision, so every path of the Python control flow is represented.
-/

namespace Crawl

/-! ## Python string primitives

Characters are Lean `Char`s; strings are `List Char` so that the positional
splitting done by `urllib.parse` is directly expressible.  The model covers
ASCII text (URLs): `str.lower` is modelled by its action on `'A'..'Z'`, and
the WHATWG control-character stripping that newer CPython versions perform
before parsing is the identity on such inputs.
-/

/-- `str.lower` on one ASCII character. -/
def lowerChar (c : Char) : Char :=
  if 65 ≤ c.toNat ∧ c.toNat ≤ 90 then Char.ofNat (c.toNat + 32) else c

/-- `str.lower` on a string. -/
def lowerStr (s : List Char) : List Char := s.map lowerChar

/-- `str.rstrip('/')`: remove every trailing `'/'`. -/
def rstripSlash (s : List Char) : List Char :=
  (s.reverse.dropWhile (fun c => c == '/')).reverse

/-- `s.split(sep, 1)`: the part before the first occurrence of `sep` and the
part after it (the whole string and `[]` when `sep` does not occur). -/
def splitFirst (sep : Char) (url : List Char) : List Char × List Char :=
  (url.takeWhile (fun c => c != sep), (url.dropWhile (fun c => c != sep)).drop 1)

/-- The suffix after the last `'/'` (the whole string when there is none):
`url[url.rfind('/')+1:]`. -/
def afterLastSlash (l : List Char) : List Char :=
  (l.reverse.takeWhile (fun c => c != '/')).reverse

/-! ## `urllib.parse.urlparse`

Modelled from CPython's `urllib/parse.py`: `urlsplit` splits scheme, netloc,
fragment and query in that order, and `urlparse` additionally splits the
parameters off the last path segment (`_splitparams`).  The bracketed-host
validation (which raises `ValueError`) is not modelled; none of the inputs
considered here contain brackets.
-/

/-- Characters allowed in a scheme after the initial letter
(`scheme_chars` in `urllib/parse.py`). -/
def isSchemeChar (c : Char) : Bool :=
  c.isAlpha || c.isDigit || c == '+' || c == '-' || c == '.'

/-- The scheme split of `urlsplit`: if the first `':'` is preceded by an ASCII
letter followed by scheme characters, the part before it (lower-cased) is the
scheme and the rest follows the `':'`; otherwise there is no scheme. -/
def pySplitScheme (url : List Char) : List Char × List Char :=
  let pre := url.takeWhile (fun c => c != ':')
  if pre.length < url.length then
    match pre with
    | [] => ([], url)
    | a :: t =>
      if a.isAlpha && t.all isSchemeChar then
        (lowerStr (a :: t), url.drop (pre.length + 1))
      else ([], url)
  else ([], url)

/-- A character ending the netloc (`_splitnetloc` stops at `'/'`, `'?'`, `'#'`). -/
def isNetlocDelim (c : Char) : Bool := c == '/' || c == '?' || c == '#'

/-- The netloc split of `urlsplit`: only when the rest starts with `"//"`. -/
def pySplitNetloc (url : List Char) : List Char × List Char :=
  match url with
  | '/' :: '/' :: rest =>
    (rest.takeWhile (fun c => !isNetlocDelim c), rest.dropWhile (fun c => !isNetlocDelim c))
  | _ => ([], url)

/-- `_splitparams`: split the parameters off the last path segment.  With a
`'/'` in the path the split happens at the first `';'` at or after the last
`'/'` (no split if that segment has none); without a `'/'` it happens at the
first `';'`. -/
def pySplitParams (url : List Char) : List Char × List Char :=
  if ';' ∈ url then
    if '/' ∈ url then
      let tail := afterLastSlash url
      if ';' ∈ tail then
        (url.take (url.length - tail.length) ++ tail.takeWhile (fun c => c != ';'),
         (tail.dropWhile (fun c => c != ';')).drop 1)
      else (url, [])
    else
      (url.takeWhile (fun c => c != ';'), (url.dropWhile (fun c => c != ';')).drop 1)
  else (url, [])

/-- The result of `urlparse`. -/
structure UrlParts where
  scheme   : List Char
  netloc   : List Char
  path     : List Char
  params   : List Char
  query    : List Char
  fragment : List Char
deriving Repr, DecidableEq

/-- `urllib.parse.urlsplit`. -/
def pyUrlsplit (url : List Char) : UrlParts :=
  let s := pySplitScheme url
  let n := pySplitNetloc s.2
  let f := splitFirst '#' n.2
  let q := splitFirst '?' f.1
  ⟨s.1, n.1, q.1, [], q.2, f.2⟩

/-- `urllib.parse.urlparse`. -/
def pyUrlparse (url : List Char) : UrlParts :=
  let u := pyUrlsplit url
  let p := pySplitParams u.path
  { u with path := p.1, params := p.2 }

/-! ## `CrawlerNode.normalize_url`

```python
def normalize_url(self, url):
    parsed = urlparse(url)
    normalized = f"{parsed.scheme}://{parsed.netloc}{parsed.path}"
    if parsed.query:
        normalized += f"?{parsed.query}"
    return normalized.lower().rstrip('/')
```
-/

/-- `CrawlerNode.normalize_url` from `src/crawler/crawler_node.py`. -/
def normalize_url (url : List Char) : List Char :=
  let p := pyUrlparse url
  let base := p.scheme ++ ':' :: '/' :: '/' :: [] ++ p.netloc ++ p.path
  let withQ := if p.query = [] then base else base ++ '?' :: p.query
  rstripSlash (lowerStr withQ)

/-- `normalize_url` on Lean `String`s. -/
def normalizeUrl (s : String) : String := ⟨normalize_url s.data⟩

example : normalizeUrl "HTTP://Example.COM/Path/" = "http://example.com/path" := by decide
example : normalizeUrl "http://a.com/x?/" = "http://a.com/x?" := by decide
example : normalizeUrl "http://a.com/x?" = "http://a.com/x" := by decide
example : normalizeUrl "http://a.com/p;a/" = "http://a.com/p;a" := by decide
example : normalizeUrl "http://a.com/p;a" = "http://a.com/p" := by decide
example : normalizeUrl "http://A.com/B/C?d=E#frag" = "http://a.com/b/c?d=e" := by decide
example : normalizeUrl "http://a.com/path/?q=1" = "http://a.com/path/?q=1" := by decide
example : normalizeUrl "example.com" = "://example.com" := by decide
example : normalizeUrl "http://" = "http:" := by decide
example : normalizeUrl "http://a.com//" = "http://a.com" := by decide
example : normalizeUrl "http://a.com/x?q=a/" = "http://a.com/x?q=a" := by decide
example : normalizeUrl "http:a//b" = "http://a//b" := by decide
example : normalizeUrl "http:a;b" = "http://a" := by decide
example : normalizeUrl "http://a;b/c" = "http://a;b/c" := by decide
example : normalizeUrl "http:a//b;c" = "http://a//b" := by decide
example : normalizeUrl "HTTP://U:P@Host:80/x" = "http://u:p@host:80/x" := by decide
example : normalizeUrl "1http://a" = "://1http://a" := by decide
example : normalizeUrl "ht+t.p-2://A/B" = "ht+t.p-2://a/b" := by decide
example : normalizeUrl "http://a.com/x#f?q" = "http://a.com/x" := by decide
example : normalizeUrl "http://a.com/x?q#f" = "http://a.com/x?q" := by decide
example : normalizeUrl ";a;b" = ":" := by decide
example : normalizeUrl "a/b;c;d" = "://a/b" := by decide

/-! ## Bus messages and blob payloads

JSON objects on the bus and in the blob store are modelled as records whose
fields mirror the keys the Python code reads or writes; `Option` marks keys
that may be absent (`data.get(k)`); `none` is an absent key.
-/

/-- A `job-submission` envelope `{task_id, gcs_path, is_continuation?, url_count?}`
as consumed by `MasterNode.handle_new_job` and produced by the submission UI
and by `CrawlerNode.publish_new_urls_to_master`. -/
structure JobEnvelope where
  task_id : Option String := none
  gcs_path : Option String := none
  is_continuation : Option Bool := none
  url_count : Option Nat := none
deriving Repr, DecidableEq

/-- The JSON payload of a job blob.  `MasterNode.handle_new_job` discriminates
on the presence of the key `"urls"`: a `batch` is a crawler link batch, a
`seed` is a UI submission `{seed_urls, depth, domain_restriction}`. -/
inductive BlobJson where
  | batch (urls : List String) (depth : Option Int) (domain_restriction : Option String)
      (source_task_id : Option String) (url_count : Option Nat)
      (depth_limit : Option Int) (total_depth : Option Int)
  | seed (seed_urls : List String) (depth : Option Int) (domain_restriction : Option String)
deriving Repr, DecidableEq

/-- Outcome of `blob.download_as_text()` + `json.loads` as seen by
`handle_new_job`: a raised download error (caught by the outer handler, which
nacks), an empty blob, undecodable JSON (both acked), or a decoded payload. -/
inductive BlobRead where
  | failure
  | empty
  | malformed
  | json (j : BlobJson)
deriving Repr, DecidableEq

/-- A `crawl-task` message as built by `MasterNode.publish_crawl_task`. -/
structure CrawlTaskMsg where
  task_id : Option String
  url : String
  depth : Option Int
  depth_limit : Option Int
  domain_restriction : Option String
  source_job_id : Option String
  is_continuation : Bool
deriving Repr, DecidableEq

/-- An `index-task` message as built by `CrawlerNode.process_crawl_task`.
`crawled_timestamp` (`time.time()`) is carried opaquely. -/
structure IndexTaskMsg where
  source_task_id : String
  content_id : String
  original_url : String
  final_url : String
  gcs_processed_path : String
  crawled_timestamp : Nat
deriving Repr, DecidableEq

/-- A progress event `{node_type, event, ...}`.  Optional fields mirror the
`data.get` calls of the producers and of the aggregator. -/
structure ProgressMsg where
  node_type : String
  event : String
  hostname : Option String := none
  timestamp : Option String := none
  task_id : Option String := none
  job_id : Option String := none
  url : Option String := none
  count : Option Nat := none
  url_count : Option Nat := none
  depth : Option Int := none
  seed_urls : Option (List String) := none
  domain_restriction : Option String := none
  content_id : Option String := none
  reason : Option String := none
  error : Option String := none
deriving Repr, DecidableEq

/-- A health event `{node_type, hostname, status, timestamp}`. -/
structure HealthMsg where
  node_type : String := "unknown"
  status : String := "unknown"
  hostname : Option String := none
  timestamp : Option String := none
deriving Repr, DecidableEq

/-- Ack decision of a message handler. -/
inductive Ack where
  | ack
  | nack
deriving Repr, DecidableEq

/-- Python truthiness of an optional string (`None` and `""` are falsy). -/
def truthyS : Option String → Bool
  | none => false
  | some s => s ≠ ""

/-- Python's `needle in hay` on strings (substring containment). -/
def isSubstr (needle : List Char) : List Char → Bool
  | [] => needle.isEmpty
  | c :: rest => needle.isPrefixOf (c :: rest) || isSubstr needle rest

/-- Python's `s.startswith(pre)`. -/
def pyStartsWith (s pre : String) : Bool := pre.data.isPrefixOf s.data

/-- Python's `s < t` on strings: lexicographic by code point. -/
def pyStrLt : List Char → List Char → Bool
  | [], [] => false
  | [], _ :: _ => true
  | _ :: _, [] => false
  | a :: as, b :: bs =>
    if a.toNat < b.toNat then true
    else if b.toNat < a.toNat then false
    else pyStrLt as bs

/-- Python's `s <= t` on strings, used by `sorted`. -/
def pyStrLe (a b : String) : Prop := pyStrLt b.data a.data = false

instance : DecidableRel pyStrLe := fun a b => instDecidableEqBool (pyStrLt b.data a.data) false

/-! ## Master (`src/master/master_node.py`)

`publish_message` and `publish_progress_metric` catch every publish error and
only log it, so progress publishes never influence control flow; they appear
unconditionally in the outputs below.  Fresh UUIDs and publish outcomes are
supplied as streams indexed by the publish counter.
-/

/-- `MasterNode.publish_crawl_task`: for a continuation the task id is the
`source_job_id`; otherwise a fresh `uuid4`.  `ok` is the outcome of the
publish (the function catches publish errors and returns `False`). -/
def publish_crawl_task (url : String) (depth : Option Int) (domain_restriction : Option String)
    (source_job_id : Option String) (depth_limit : Option Int) (is_continuation : Bool)
    (fresh : String) (ok : Bool) : CrawlTaskMsg × Bool :=
  ({ task_id := if is_continuation then source_job_id else some fresh,
     url := url
     depth := depth
     depth_limit := depth_limit
     domain_restriction := domain_restriction
     source_job_id := source_job_id
     is_continuation := is_continuation }, ok)

/-- An incoming bus message as decoded by `handle_new_job`: empty payload,
undecodable JSON, or a decoded envelope. -/
inductive InMessage where
  | empty
  | malformed
  | json (env : JobEnvelope)
deriving Repr, DecidableEq

/-- The visible result of one `handle_new_job` invocation: progress events
published, crawl tasks published (with each publish's outcome), and the
ack/nack decision on the envelope. -/
structure MasterOut where
  progress : List ProgressMsg
  crawlTasks : List (CrawlTaskMsg × Bool)
  ack : Ack
deriving Repr, DecidableEq

/-- `MasterNode.handle_new_job`.  `blob` is the outcome of
`blob.download_as_text()` plus `json.loads`; a raised download error reaches
the outer `except` and nacks, every other invalid input is acked and dropped.
`freshIds` and `pubOk` are the `uuid4` values and publish outcomes of the
successive `publish_crawl_task` calls. -/
def handle_new_job (msg : InMessage) (blob : BlobRead)
    (freshIds : Nat → String) (pubOk : Nat → Bool) (host now : String) : MasterOut :=
  match msg with
  | .empty => ⟨[], [], .ack⟩
  | .malformed => ⟨[], [], .ack⟩
  | .json env =>
    let task_id := env.task_id
    let gcs_path := env.gcs_path
    let is_cont := env.is_continuation.getD false
    let progress1 : List ProgressMsg :=
      if ¬ is_cont then
        [{ node_type := "master", event := "job_received", hostname := some host,
           timestamp := some now, job_id := task_id }]
      else
        [{ node_type := "master", event := "task_continuation", hostname := some host,
           timestamp := some now, job_id := task_id,
           url_count := some (env.url_count.getD 0) }]
    if ¬ (truthyS task_id ∧ truthyS gcs_path) then ⟨progress1, [], .ack⟩
    else
      let gp := gcs_path.getD ""
      if ¬ pyStartsWith gp "gs://" then ⟨progress1, [], .ack⟩
      else if ¬ ('/' ∈ gp.data.drop 5) then ⟨progress1, [], .ack⟩
      else
        match blob with
        | .failure => ⟨progress1, [], .nack⟩
        | .empty => ⟨progress1, [], .ack⟩
        | .malformed => ⟨progress1, [], .ack⟩
        | .json (.batch urls depth dr _stid url_count dl td) =>
          if urls = [] then ⟨progress1, [], .ack⟩
          else
            let dl' := dl.getD (td.getD 3)
            let tasks := urls.enum.map (fun p =>
              publish_crawl_task p.2 depth dr task_id (some dl') true (freshIds p.1) (pubOk p.1))
            ⟨progress1 ++
              [{ node_type := "master", event := "urls_scheduled", hostname := some host,
                 timestamp := some now, job_id := task_id,
                 count := some (url_count.getD urls.length) }],
             tasks, .ack⟩
        | .json (.seed seeds depth dr) =>
          if seeds = [] then ⟨progress1, [], .ack⟩
          else
            let tasks := seeds.enum.map (fun p =>
              publish_crawl_task p.2 (some 0) dr task_id depth false (freshIds p.1) (pubOk p.1))
            ⟨progress1 ++
              [{ node_type := "master", event := "url_scheduled", hostname := some host,
                 timestamp := some now, job_id := task_id, url := seeds.head? }],
             tasks, .ack⟩

/-! ## Crawler (`src/crawler/crawler_node.py`)

`can_fetch` (robots rules with a per-host cache, permissive on fetch error)
is abstracted to its boolean outcome; blob uploads, the HTTP fetch and the
index publish take their outcomes as parameters.  Progress publishes go
through `publish_message`, which swallows errors, so they never branch.
-/

/-- The fields `process_crawl_task` reads from a `crawl-task` message. -/
structure CrawlTaskData where
  url : Option String := none
  task_id : Option String := none
  depth : Option Int := none
  depth_limit : Option Int := none
  domain_restriction : Option String := none
  source_job_id : Option String := none
deriving Repr, DecidableEq

/-- Outcome of `requests.get`: a timeout (nacked), another request error
(acked), or a response, abstracted to its post-redirect URL, content type,
extracted visible text, and `<a href>` attributes in document order. -/
inductive FetchResult where
  | timeout
  | requestError
  | success (final_url : String) (content_type : String) (text : String) (hrefs : List String)
deriving Repr, DecidableEq

/-- Outcomes of the effectful calls made by one `process_crawl_task` run. -/
structure CrawlerEffects where
  robotsAllowed : Bool
  fetch : FetchResult
  contentId : String
  rawOk : Bool
  processedOk : Bool
  indexPubOk : Bool
  batchId : String
  batchTs : String
  batchBlobOk : Bool
  nowIso : String
  nowEpoch : Nat
deriving Repr

set_option linter.unusedVariables false in
/-- `CrawlerNode.publish_new_urls_to_master`: mint a fresh batch id, persist
`{"seed_urls": new_urls, "depth": depth, "domain_restriction": ...}` at
`new_tasks/{batch_id}_{ts}.json`, and announce `{task_id: batch_id,
gcs_path}` on the master's job topic.  Nothing happens when the URL list is
empty.  The `source_task_id` parameter is accepted and never used, exactly as
in the source. -/
def publish_new_urls_to_master (new_urls : List String) (domain_restriction : Option String)
    (source_task_id : String) (depth : Int) (batchId ts bucket : String) :
    Option ((String × BlobJson) × JobEnvelope) :=
  if new_urls = [] then none
  else
    let path := "new_tasks/" ++ batchId ++ "_" ++ ts ++ ".json"
    some ((path, BlobJson.seed new_urls (some depth) domain_restriction),
          { task_id := some batchId,
            gcs_path := some ("gs://" ++ bucket ++ "/" ++ path) })

/-- The visible result of one `process_crawl_task` run: the seen-set after the
run, the progress events, index tasks and link-batch artefacts produced
(recorded as attempted, with success governed by the effect outcomes), and
the ack/nack decision. -/
structure CrawlerOut where
  seen : List String
  progress : List ProgressMsg
  indexTasks : List IndexTaskMsg
  rawWrites : List String
  processedWrites : List String
  batchBlobs : List (String × BlobJson)
  announcements : List JobEnvelope
  ack : Ack
deriving Repr, DecidableEq

/-- The link-extraction loop of `process_crawl_task` (step over one href):
resolve against the final URL, keep `http`/`https` URLs with a host, skip
seen ones, apply the domain restriction, then record the normalised URL as
seen and collect it. -/
def linkStep (urljoin : String → String → String) (final_url : String)
    (dr : Option String) (acc : List String × List String) (href : String) :
    List String × List String :=
  let new_url := urljoin final_url href
  let p := pyUrlparse new_url.data
  if (p.scheme = "http".data ∨ p.scheme = "https".data) ∧ p.netloc ≠ [] then
    let nn := normalizeUrl new_url
    if nn ∈ acc.1 then acc
    else if truthyS dr ∧ ¬ isSubstr (dr.getD "").data p.netloc then acc
    else (acc.1 ++ [nn], acc.2 ++ [nn])
  else acc

/-- The HTML-response phase of `process_crawl_task` (`crawler_node.py` lines
261-341): non-HTML content is acked; raw and processed blobs are written;
the index task is published; `url_crawled` is emitted; below the depth limit
the link loop runs and the batch goes to the master. -/
def crawler_handle_response (bucket : String) (urljoin : String → String → String)
    (eff : CrawlerEffects) (task_id url : String) (depth depth_limit : Int)
    (dr : Option String) (seen1 : List String)
    (final_url content_type : String) (hrefs : List String) : CrawlerOut :=
  let ct := content_type.data.map lowerChar
  if ¬ isSubstr "html".data ct then ⟨seen1, [], [], [], [], [], [], .ack⟩
  else
    let content_id := eff.contentId
    let rawW := ["raw_html/" ++ content_id ++ ".html"]
    if ¬ eff.rawOk then ⟨seen1, [], [], rawW, [], [], [], .nack⟩
    else
      let procPath := "processed_text/" ++ content_id ++ ".txt"
      if ¬ eff.processedOk then ⟨seen1, [], [], rawW, [procPath], [], [], .nack⟩
      else
        let idxMsg : IndexTaskMsg :=
          { source_task_id := task_id, content_id := content_id,
            original_url := url, final_url := final_url,
            gcs_processed_path := "gs://" ++ bucket ++ "/" ++ procPath,
            crawled_timestamp := eff.nowEpoch }
        if ¬ eff.indexPubOk then ⟨seen1, [], [idxMsg], rawW, [procPath], [], [], .nack⟩
        else
          let crawledEvt : ProgressMsg :=
            { node_type := "crawler", task_id := some task_id, event := "url_crawled",
              url := some url, timestamp := some eff.nowIso }
          if depth < depth_limit then
            let res := hrefs.foldl (linkStep urljoin final_url dr) (seen1, [])
            let new_urls := res.2
            let batchOut := publish_new_urls_to_master new_urls dr task_id (depth + 1)
              eff.batchId eff.batchTs bucket
            if new_urls ≠ [] ∧ ¬ eff.batchBlobOk then
              ⟨res.1, [crawledEvt], [idxMsg], rawW, [procPath], [], [], .nack⟩
            else
              ⟨res.1,
               [crawledEvt,
                { node_type := "crawler", task_id := some task_id, event := "new_urls_found",
                  timestamp := some eff.nowIso, count := some new_urls.length }],
               [idxMsg], rawW, [procPath],
               (batchOut.map (fun b => b.1)).toList,
               (batchOut.map (fun b => b.2)).toList, .ack⟩
          else
            ⟨seen1, [crawledEvt], [idxMsg], rawW, [procPath], [], [], .ack⟩

/-- The fetch phase of `process_crawl_task` (`crawler_node.py` lines
244-259): a timeout nacks, another request error acks, a response is handed
to `crawler_handle_response`. -/
def crawler_fetch_phase (bucket : String) (urljoin : String → String → String)
    (eff : CrawlerEffects) (task_id url : String) (depth depth_limit : Int)
    (dr : Option String) (seen1 : List String) : CrawlerOut :=
  match eff.fetch with
  | .timeout => ⟨seen1, [], [], [], [], [], [], .nack⟩
  | .requestError => ⟨seen1, [], [], [], [], [], [], .ack⟩
  | .success final_url content_type _text hrefs =>
    crawler_handle_response bucket urljoin eff task_id url depth depth_limit dr seen1
      final_url content_type hrefs

/-- `CrawlerNode.process_crawl_task`.  `msg` is the decoded message (`none`
for a JSON decode failure, which is acked).  `maxDepth` is the `MAX_DEPTH`
configuration, `urljoin` the resolution function for relative hrefs. -/
def process_crawl_task (maxDepth : Int) (bucket : String)
    (urljoin : String → String → String)
    (eff : CrawlerEffects) (seen : List String) (msg : Option CrawlTaskData) : CrawlerOut :=
  match msg with
  | none => ⟨seen, [], [], [], [], [], [], .ack⟩
  | some td =>
    let task_id := td.task_id.getD "N/A"
    let depth := td.depth.getD 0
    let depth_limit := td.depth_limit.getD maxDepth
    let dr := td.domain_restriction
    if ¬ (truthyS td.url ∧ pyStartsWith (td.url.getD "") "http") then
      ⟨seen, [], [], [], [], [], [], .ack⟩
    else
      let url := td.url.getD ""
      let normalized := normalizeUrl url
      if normalized ∈ seen then ⟨seen, [], [], [], [], [], [], .ack⟩
      else
        let seen1 := seen ++ [normalized]
        if ¬ eff.robotsAllowed then
          ⟨seen1,
           [{ node_type := "crawler", task_id := some task_id, event := "url_skipped",
              url := some url, timestamp := some eff.nowIso, reason := some "robots_txt" }],
           [], [], [], [], [], .ack⟩
        else
          crawler_fetch_phase bucket urljoin eff task_id url depth depth_limit dr seen1

/-! ## Indexer (`src/indexer/indexer_node.py`)

`process_indexing_task`, with the blob download and the index upsert
abstracted to their outcomes.
-/

/-- The fields `process_indexing_task` reads from an `index-task` message. -/
structure IndexTaskData where
  task_id : Option String := none
  final_url : Option String := none
  original_url : Option String := none
  gcs_processed_path : Option String := none
  content_id : Option String := none
  source_task_id : Option String := none
deriving Repr, DecidableEq

/-- The `result` field of the index-service response; `index_document`
accepts only `created` and `updated`. -/
inductive EsResult where
  | created
  | updated
  | other
deriving Repr, DecidableEq

/-- `IndexerNode.index_document` reduced to its success condition. -/
def index_document_ok (res : EsResult) : Bool :=
  match res with
  | .created => true
  | .updated => true
  | .other => false

/-- The visible result of one `process_indexing_task` run. -/
structure IndexerOut where
  progress : List ProgressMsg
  upserts : List (String × String)
  ack : Ack
deriving Repr, DecidableEq

/-- `IndexerNode.process_indexing_task`.  `msg` is the decoded message
(`none` for a JSON decode failure, which is acked); `blobText` the outcome of
`download_from_gcs` (`none` nacks); `esResult` the index-service result. -/
def process_indexing_task (bucket : String) (msg : Option IndexTaskData)
    (blobText : Option String) (esResult : EsResult) (now : String) : IndexerOut :=
  match msg with
  | none => ⟨[], [], .ack⟩
  | some td =>
    let url? := if truthyS td.final_url then td.final_url else td.original_url
    if ¬ truthyS url? then ⟨[], [], .ack⟩
    else
      let url := url?.getD ""
      let content_id := td.content_id.getD "N/A"
      if ¬ truthyS td.gcs_processed_path then ⟨[], [], .ack⟩
      else
        let gp := td.gcs_processed_path.getD ""
        if ¬ pyStartsWith gp ("gs://" ++ bucket ++ "/") then ⟨[], [], .ack⟩
        else
          match blobText with
          | none => ⟨[], [], .nack⟩
          | some text =>
            if index_document_ok esResult then
              ⟨[{ node_type := "indexer", event := "url_indexed", timestamp := some now,
                  task_id := if truthyS td.source_task_id then td.source_task_id else none,
                  url := some url, content_id := some content_id }],
               [(url, text)], .ack⟩
            else ⟨[], [], .nack⟩

/-! ## Progress Aggregator (`src/UI/main.py`)

The aggregator's in-memory state.  Python dicts are modelled as
insertion-ordered association lists (updates in place, inserts at the end).
Task-dictionary keys are `Option String` because the handler can key a task
by `data.get("job_id")`, which may be `None`.  Event fields read with
`data.get(k, default)` use the default when the field is `none`.
-/

/-- `d.get(k)` on an insertion-ordered dict. -/
def dictGet [BEq κ] (d : List (κ × α)) (k : κ) : Option α :=
  (d.find? (fun p => p.1 == k)).map (fun p => p.2)

/-- `d[k] = v` on an insertion-ordered dict: update in place (keeping the
original key position), insert at the end. -/
def dictSet [BEq κ] (d : List (κ × α)) (k : κ) (v : α) : List (κ × α) :=
  if (d.find? (fun p => p.1 == k)).isSome then
    d.map (fun p => (p.1, if p.1 == k then v else p.2))
  else d ++ [(k, v)]

/-- In-place mutation of the entry at `k` (no effect when absent). -/
def dictModify [BEq κ] (d : List (κ × α)) (k : κ) (f : α → α) : List (κ × α) :=
  d.map (fun p => (p.1, if p.1 == k then f p.2 else p.2))

/-- `task["completion_details"]`: either the `task_completed` event itself or
the auto-completion marker `{"auto_completed": True, "reason": ...}` set by
the MAX_ACTIVE_TASKS cap. -/
inductive CompletionDetails where
  | fromEvent (e : ProgressMsg)
  | autoCompleted (reason : String)
deriving Repr, DecidableEq

/-- One entry of a task's `progress_events` timeline:
`{"event": ..., "timestamp": ..., "details": data}`. -/
structure TimelineEntry where
  event : String
  timestamp : String
  details : ProgressMsg
deriving Repr, DecidableEq

/-- One value of `app_state["tasks"]`. -/
structure TaskEntry where
  task_id : Option String
  status : String
  crawled_urls : Nat
  indexed_urls : Nat
  crawled_urls_list : List String
  indexed_urls_list : List String
  start_time : String
  last_update : String
  progress_events : List TimelineEntry
  total_depth : Int
  current_depth : Int
  seed_urls : List String
  domain_restriction : Option String
  continuations : Option Nat := none
  continuation_details : List (String × Nat) := []
  depth_complete : Option Int := none
  end_time : Option String := none
  error : Option String := none
  error_details : Option ProgressMsg := none
  completion_details : Option CompletionDetails := none
  warning : Option String := none
deriving Repr, DecidableEq

/-- One value of `app_state["health"]`. -/
structure HealthEntry where
  status : String
  last_check : Option String
  hostname : Option String := none
deriving Repr, DecidableEq

/-- `app_state["summary"]`. -/
structure Summary where
  urls_crawled : Nat := 0
  urls_indexed : Nat := 0
  active_tasks : Nat := 0
  completed_tasks : Nat := 0
  failed_tasks : Nat := 0
deriving Repr, DecidableEq

/-- `app_state`. -/
structure AppState where
  tasks : List (Option String × TaskEntry)
  summary : Summary
  health : List (String × HealthEntry)
  startup_time : String
  known_task_ids : List (Option String)
  seed_url_to_task : List (List String × Option String)
deriving Repr, DecidableEq

/-- The initial `app_state` at UI startup. -/
def initialAppState (startup : String) : AppState :=
  { tasks := []
    summary := {}
    health := [("master", { status := "unknown", last_check := none }),
               ("crawler", { status := "unknown", last_check := none }),
               ("indexer", { status := "unknown", last_check := none })]
    startup_time := startup
    known_task_ids := []
    seed_url_to_task := [] }

/-- `MAX_ACTIVE_TASKS`. -/
def MAX_ACTIVE_TASKS : Nat := 20

/-- `TASK_STALL_TIMEOUT` (seconds). -/
def TASK_STALL_TIMEOUT : Int := 600

/-- The clamp of `update_summary_stats`'s first pass on one task. -/
def clampTask (t : TaskEntry) : TaskEntry :=
  if t.indexed_urls > t.crawled_urls then { t with indexed_urls := t.crawled_urls } else t

/-- `update_summary_stats`: clamp `indexed_urls` to `crawled_urls` on every
task (warning per clamped task, returned as the list of their ids), then
recompute the summary counters. -/
def update_summary_stats (s : AppState) : AppState × List (Option String) :=
  let warned := (s.tasks.filter (fun p => p.2.indexed_urls > p.2.crawled_urls)).map
    (fun p => p.2.task_id)
  let tasks1 := s.tasks.map (fun p => (p.1, clampTask p.2))
  ({ s with
      tasks := tasks1
      summary :=
        { urls_crawled := (tasks1.map (fun p => p.2.crawled_urls)).sum
          urls_indexed := (tasks1.map (fun p => p.2.indexed_urls)).sum
          active_tasks := (tasks1.filter (fun p => p.2.status == "in_progress")).length
          completed_tasks := (tasks1.filter (fun p => p.2.status == "completed")).length
          failed_tasks := (tasks1.filter (fun p => p.2.status == "failed")).length } },
   warned)

/-- The callback of `listen_health_status`: events with a truthy timestamp
lexicographically before `UI_STARTUP_TIME` are skipped, known node types get
their health entry replaced.  The callback always acks (a `finally` block). -/
def listen_health_status_callback (s : AppState) (data : HealthMsg) : AppState :=
  if truthyS data.timestamp ∧ pyStrLt (data.timestamp.getD "").data s.startup_time.data then s
  else if (dictGet s.health data.node_type).isSome then
    let entry : HealthEntry :=
      { status := data.status, last_check := data.timestamp,
        hostname := some (data.hostname.getD "unknown") }
    { s with health := dictSet s.health data.node_type entry }
  else s

/-- `tuple(sorted(seed_urls))`. -/
def seedKey (seeds : List String) : List String :=
  List.insertionSort pyStrLe seeds

/-- `l[:10] + l[-40:]` applied when a per-task list exceeds 100 entries. -/
def trimList (l : List α) : List α :=
  if l.length > 100 then l.take 10 ++ l.drop (l.length - 40) else l

/-- The event-specific `if/elif` chain of the progress callback
(`src/UI/main.py` lines 242-316), acting on the task keyed `tid` (and on the
seed-URL map for `task_started`). -/
def applyProgressEvent (s : AppState) (tid : Option String) (data : ProgressMsg)
    (ts : String) : AppState :=
  if data.event == "task_started" then
    let s1 := { s with tasks := dictModify s.tasks tid (fun t =>
      { t with status := "in_progress", start_time := ts,
               total_depth := data.depth.getD t.total_depth,
               seed_urls := data.seed_urls.getD t.seed_urls,
               domain_restriction :=
                 (match data.domain_restriction with
                  | some d => some d
                  | none => t.domain_restriction),
               continuations := some 0 }) }
    let seeds := data.seed_urls.getD []
    if seeds ≠ [] then
      { s1 with seed_url_to_task := dictSet s1.seed_url_to_task (seedKey seeds) tid }
    else s1
  else if data.event == "task_continuation" then
    { s with tasks := dictModify s.tasks tid (fun t =>
      { t with continuations := some (t.continuations.getD 0 + 1),
               continuation_details :=
                 t.continuation_details ++ [(ts, data.url_count.getD 0)] }) }
  else if data.event == "url_crawled" || data.event == "crawled" then
    { s with tasks := dictModify s.tasks tid (fun t =>
      let t1 := { t with crawled_urls := t.crawled_urls + 1 }
      let t2 :=
        if truthyS data.url ∧ (data.url.getD "") ∉ t1.crawled_urls_list then
          { t1 with crawled_urls_list := t1.crawled_urls_list ++ [data.url.getD ""] }
        else t1
      let t3 :=
        match data.depth with
        | some d => if d > t2.current_depth then { t2 with current_depth := d } else t2
        | none => t2
      if t3.status == "submitted" then { t3 with status := "in_progress" } else t3) }
  else if data.event == "url_indexed" || data.event == "indexed" then
    { s with tasks := dictModify s.tasks tid (fun t =>
      let t1 := { t with indexed_urls := t.indexed_urls + 1 }
      let t2 :=
        if truthyS data.url ∧ (data.url.getD "") ∉ t1.indexed_urls_list then
          { t1 with indexed_urls_list := t1.indexed_urls_list ++ [data.url.getD ""] }
        else t1
      if t2.status == "submitted" then { t2 with status := "in_progress" } else t2) }
  else if data.event == "depth_complete" then
    match data.depth with
    | some d => { s with tasks := dictModify s.tasks tid (fun t =>
        { t with depth_complete := some d }) }
    | none => s
  else if data.event == "task_completed" then
    { s with tasks := dictModify s.tasks tid (fun t =>
      { t with status := "completed", end_time := some ts,
               completion_details := some (.fromEvent data) }) }
  else if data.event == "task_failed" then
    { s with tasks := dictModify s.tasks tid (fun t =>
      { t with status := "failed", end_time := some ts,
               error := some (data.error.getD "Unknown error"),
               error_details := some data }) }
  else s

/-- The special handling of master `job_received` events (`src/UI/main.py`
lines 181-201): coalesce by the sorted seed tuple when the event carries
seed URLs, registering new keys; returns the task id to use and the
(possibly updated) state. -/
def progressResolveTid (s : AppState) (data : ProgressMsg) (task_id0 : Option String) :
    Option String × AppState :=
  if data.node_type == "master" && data.event == "job_received" then
    let seeds := data.seed_urls.getD []
    if seeds ≠ [] then
      let key := seedKey seeds
      match dictGet s.seed_url_to_task key with
      | some existing =>
        if (dictGet s.tasks existing).isSome then (existing, s) else (data.job_id, s)
      | none =>
        (data.job_id,
         { s with seed_url_to_task := dictSet s.seed_url_to_task key data.job_id })
    else (data.job_id, s)
  else (task_id0, s)

/-- Entry creation for an unknown task id (`src/UI/main.py` lines 202-228). -/
def progressEnsureEntry (s : AppState) (tid : Option String) (data : ProgressMsg)
    (ts : String) : AppState :=
  if (dictGet s.tasks tid).isNone then
    let entry : TaskEntry :=
      { task_id := tid
        status := if data.event == "job_received" then "submitted" else "in_progress"
        crawled_urls := 0
        indexed_urls := 0
        crawled_urls_list := []
        indexed_urls_list := []
        start_time := ts
        last_update := ts
        progress_events := []
        total_depth := data.depth.getD 1
        current_depth := 0
        seed_urls := data.seed_urls.getD []
        domain_restriction := data.domain_restriction }
    let s2a :=
      { s with
          tasks := s.tasks ++ [(tid, entry)]
          known_task_ids :=
            if tid ∈ s.known_task_ids then s.known_task_ids
            else s.known_task_ids ++ [tid] }
    let seeds := data.seed_urls.getD []
    if seeds ≠ [] then
      { s2a with seed_url_to_task := dictSet s2a.seed_url_to_task (seedKey seeds) tid }
    else s2a
  else s

/-- Stamp `last_update` and append the event to the timeline
(`src/UI/main.py` lines 230-239). -/
def progressStamp (s : AppState) (tid : Option String) (data : ProgressMsg)
    (ts : String) : AppState :=
  { s with tasks := dictModify s.tasks tid (fun t =>
      { t with last_update := ts,
               progress_events := t.progress_events ++ [⟨data.event, ts, data⟩] }) }

/-- Trim the bounded per-task lists (`src/UI/main.py` lines 318-322). -/
def progressTrim (s : AppState) (tid : Option String) : AppState :=
  { s with tasks := dictModify s.tasks tid (fun t =>
      { t with crawled_urls_list := trimList t.crawled_urls_list,
               indexed_urls_list := trimList t.indexed_urls_list,
               progress_events := trimList t.progress_events }) }

/-- The callback of `listen_to_progress`: resolve the task id (`task_id` or
`job_id`), drop events without one, coalesce master `job_received` events by
sorted seed URLs, create the entry if absent, stamp `last_update`, append to
the timeline, dispatch on the event kind, trim the bounded lists, and update
the summary.  The callback always acks (a `finally` block); the returned list
carries the clamp warnings of the final `update_summary_stats`. -/
def listen_to_progress_callback (s : AppState) (data : ProgressMsg) (nowIso : String) :
    AppState × List (Option String) :=
  let task_id0 := if truthyS data.task_id then data.task_id else data.job_id
  let ts := if truthyS data.timestamp then data.timestamp.getD "" else nowIso
  if ¬ truthyS task_id0 then (s, [])
  else
    let r := progressResolveTid s data task_id0
    let s2 := progressEnsureEntry r.2 r.1 data ts
    let s3 := progressStamp s2 r.1 data ts
    let s4 := applyProgressEvent s3 r.1 data ts
    let s5 := progressTrim s4 r.1
    update_summary_stats s5

/-- The error string `check_stalled_tasks` writes on a stalled `submitted` task. -/
def stallErrorSubmitted : String :=
  "Task appears to be stalled in submitted state (no updates for 2+ minutes)"

/-- The error string `check_stalled_tasks` writes on a stalled `in_progress` task. -/
def stallErrorInProgress : String :=
  "Task appears to be stalled (no updates for 10+ minutes)"

/-- The stall check of `check_stalled_tasks` on one task: terminal tasks are
skipped, a timestamp-parse failure (`timeDiff = none`) is caught and skipped,
otherwise a `submitted` task idle > 120 s or an `in_progress` task idle >
`TASK_STALL_TIMEOUT` s is failed with a stall error, and an `in_progress`
task idle > 180 s gets a `slow_progress` warning. -/
def stallPass (nowIso : String) (timeDiff : String → Option Int)
    (p : Option String × TaskEntry) : Option String × TaskEntry :=
  let t := p.2
  if t.status == "completed" || t.status == "failed" then p
  else
    match timeDiff t.last_update with
    | none => p
    | some d =>
      if t.status == "submitted" ∧ d > 120 then
        (p.1,
         { t with
            status := "failed",
            end_time := some nowIso,
            error := some stallErrorSubmitted })
      else if t.status == "in_progress" ∧ d > TASK_STALL_TIMEOUT then
        (p.1,
         { t with
            status := "failed",
            end_time := some nowIso,
            error := some stallErrorInProgress })
      else if t.status == "in_progress" ∧ d > 180 then
        (p.1, { t with warning := some "slow_progress" })
      else p

/-- The auto-completion applied to one of the oldest active task ids when
the `MAX_ACTIVE_TASKS` cap is exceeded (`src/UI/main.py` lines 414-421). -/
def autoCompleteOldest (nowIso : String) (st : AppState) (q : Option String × String) :
    AppState :=
  { st with tasks := dictModify st.tasks q.1 (fun t =>
      if t.status == "in_progress" || t.status == "submitted" then
        { t with status := "completed", end_time := some nowIso,
                 completion_details := some (.autoCompleted "limit_active_tasks") }
      else t) }

/-- One sweep of `check_stalled_tasks`: snapshot the active task ids, run the
stall pass over every task, then—if the snapshot exceeds `MAX_ACTIVE_TASKS`—
auto-complete the oldest active tasks (sorted by `last_update`, all but the
most recent `MAX_ACTIVE_TASKS`) that are still `in_progress`/`submitted`,
and finally update the summary.  `timeDiff` models
`(current_time - fromisoformat(x)).total_seconds()` (`none` = parse error). -/
def check_stalled_tasks_sweep (s : AppState) (nowIso : String)
    (timeDiff : String → Option Int) : AppState × List (Option String) :=
  let active := (s.tasks.filter
    (fun p => p.2.status == "in_progress" || p.2.status == "submitted")).map (fun p => p.1)
  let tasks1 := s.tasks.map (stallPass nowIso timeDiff)
  let s1 := { s with tasks := tasks1 }
  let s2 :=
    if active.length > MAX_ACTIVE_TASKS then
      let pairs := active.map (fun tid =>
        (tid, ((dictGet tasks1 tid).map (fun t => t.last_update)).getD ""))
      let sorted := List.insertionSort
        (fun a b : Option String × String => pyStrLe a.2 b.2) pairs
      let toComplete := sorted.take (sorted.length - MAX_ACTIVE_TASKS)
      toComplete.foldl (autoCompleteOldest nowIso) s1
    else s1
  update_summary_stats s2

/-- Fold a list of progress events through the progress callback. -/
def aggRun (s : AppState) (evts : List ProgressMsg) (nowIso : String) : AppState :=
  evts.foldl (fun st e => (listen_to_progress_callback st e nowIso).1) s

/-! ## Concrete pipeline runs used by the claims -/

/-- A crawl of parent task `"J-1"` at depth 0 discovered one link; the
crawler emits the link batch under the fresh uuid `"B-77"` at next depth 1. -/
def c1Batch : Option ((String × BlobJson) × JobEnvelope) :=
  publish_new_urls_to_master ["http://b.test/x"] none "J-1" 1 "B-77" "20250101T000000" "bucket"

/-- The bus announcement of that batch. -/
def c1Env : JobEnvelope := ((c1Batch.map (fun b => b.2)).getD {})

/-- The blob payload of that batch. -/
def c1Blob : BlobJson := ((c1Batch.map (fun b => b.1.2)).getD (BlobJson.seed [] none none))

/-- The master's handling of that announcement: the blob read succeeds and
returns the crawler's payload, every publish succeeds, fresh uuids are
`"U-0"`, `"U-1"`, .... -/
def c1Master : MasterOut :=
  handle_new_job (.json c1Env) (.json c1Blob)
    (fun _ => "U-0") (fun _ => true) "host" "2025-01-01T00:00:09"

/-- C1: the pipeline does not preserve the job's task id across a link-batch
continuation.  For parent task `"J-1"`, the crawler announces the batch under
the freshly minted id `"B-77"` (its `source_task_id` argument is unused), the
payload carries the key `seed_urls` rather than `urls`, so the master takes
the seed-job branch and mints yet another uuid `"U-0"` for the derived crawl
task: the derived task's `task_id` is `"U-0"`, not `"J-1"`, and
`is_continuation` is `false`. -/
theorem c1_continuation_mints_new_task_ids :
    c1Env.task_id = some "B-77" ∧
    c1Master.crawlTasks.map (fun p => p.1.task_id) = [some "U-0"] ∧
    c1Master.crawlTasks.map (fun p => p.1.is_continuation) = [false] ∧
    (some "B-77" : Option String) ≠ some "J-1" ∧
    (some "U-0" : Option String) ≠ some "J-1" := by
  decide

/-- C2: the persisted link-batch payload and its announcement.  The blob is
`{"seed_urls": urls, "depth": 1, "domain_restriction": null}` — the key is
`seed_urls`, not `urls`, and there is no `depth_limit` field — and the
announcement is `{task_id: "B-77", gcs_path}` with a fresh uuid instead of
the parent task id and with neither `is_continuation` nor `url_count`. -/
theorem c2_link_batch_payload_shape :
    c1Batch = some
      (("new_tasks/B-77_20250101T000000.json",
        BlobJson.seed ["http://b.test/x"] (some 1) none),
       { task_id := some "B-77",
         gcs_path := some "gs://bucket/new_tasks/B-77_20250101T000000.json",
         is_continuation := none,
         url_count := none }) ∧
    c1Env.task_id ≠ some "J-1" ∧
    c1Env.is_continuation = none ∧
    c1Env.url_count = none := by
  decide

/-- A well-formed seed-job envelope for job `"J-1"`. -/
def c3Env : JobEnvelope :=
  { task_id := some "J-1", gcs_path := some "gs://bucket/crawl_tasks/J-1.json" }

/-- The master handling `c3Env` with a readable one-URL seed blob whose only
crawl-task publish fails. -/
def c3FailedPublish : MasterOut :=
  handle_new_job (.json c3Env) (.json (.seed ["http://a.test/"] (some 2) none))
    (fun _ => "U-0") (fun _ => false) "host" "2025-01-01T00:00:09"

/-- C3 counterexample: the blob yields a non-empty URL list, the single
per-URL publish fails (`publish_crawl_task` returns `False`, which
`handle_new_job` ignores), and the master still acks the envelope — refuting
the claim that the envelope is acked only if every publish succeeded and
nacked when a downstream publish fails. -/
theorem c3_counterexample_ack_despite_failed_publish :
    c3FailedPublish.crawlTasks.map (fun p => p.2) = [false] ∧
    c3FailedPublish.ack = Ack.ack := by
  decide

/-- C3 (amended): a blob-read failure reaches the outer handler and nacks the
envelope, but per-URL publish failures are swallowed — for a valid envelope
whose blob decodes to a non-empty URL batch or seed list, the envelope is
acked after the loop regardless of the publish outcomes. -/
theorem c3_ack_independent_of_publish_outcomes
    (env : JobEnvelope) (freshIds : Nat → String) (pubOk : Nat → Bool) (host now : String)
    (h1 : truthyS env.task_id) (h2 : truthyS env.gcs_path)
    (h3 : pyStartsWith (env.gcs_path.getD "") "gs://")
    (h4 : '/' ∈ (env.gcs_path.getD "").data.drop 5) :
    (handle_new_job (.json env) .failure freshIds pubOk host now).ack = Ack.nack ∧
    (∀ urls depth dr stid uc dl td, urls ≠ [] →
      (handle_new_job (.json env) (.json (.batch urls depth dr stid uc dl td))
        freshIds pubOk host now).ack = Ack.ack) ∧
    (∀ seeds depth dr, seeds ≠ [] →
      (handle_new_job (.json env) (.json (.seed seeds depth dr))
        freshIds pubOk host now).ack = Ack.ack) := by
  refine ⟨?_, ?_, ?_⟩
  · simp [handle_new_job, h1, h2, h3, h4]
  · intro urls depth dr stid uc dl td hurls
    simp [handle_new_job, h1, h2, h3, h4, hurls]
  · intro seeds depth dr hseeds
    simp [handle_new_job, h1, h2, h3, h4, hseeds]

/-- C3 amended, witness at the concrete envelope `c3Env`. -/
theorem c3_ack_independent_of_publish_outcomes_witness :
    (handle_new_job (.json c3Env) .failure (fun _ => "U") (fun _ => false)
      "host" "now").ack = Ack.nack ∧
    (handle_new_job (.json c3Env) (.json (.seed ["http://a.test/"] (some 2) none))
      (fun _ => "U") (fun _ => false) "host" "now").ack = Ack.ack := by
  have h := c3_ack_independent_of_publish_outcomes c3Env (fun _ => "U") (fun _ => false)
    "host" "now" (by decide) (by decide) (by decide) (by decide)
  exact ⟨h.1, h.2.2 ["http://a.test/"] (some 2) none (by decide)⟩

/-- The `crawl-task` message of C9: task `"T-9"`, seed URL, depth 0 with
depth limit 0. -/
def c9Task : CrawlTaskData :=
  { url := some "http://a.test/", task_id := some "T-9",
    depth := some 0, depth_limit := some 0 }

/-- First delivery: robots allow, the fetch times out. -/
def c9Eff1 : CrawlerEffects :=
  { robotsAllowed := true, fetch := .timeout, contentId := "c-1",
    rawOk := true, processedOk := true, indexPubOk := true,
    batchId := "b-1", batchTs := "20250101T000001", batchBlobOk := true,
    nowIso := "2025-01-01T00:00:01", nowEpoch := 1 }

/-- Redelivery to the same process: the fetch now succeeds with an HTML page. -/
def c9Eff2 : CrawlerEffects :=
  { c9Eff1 with fetch := .success "http://a.test/" "text/html" "hello world" [] }

/-- The first run, from an empty seen-set. -/
def c9Run1 : CrawlerOut :=
  process_crawl_task 3 "bucket" (fun _ h => h) c9Eff1 [] (some c9Task)

/-- The redelivery, continuing from the first run's seen-set. -/
def c9Run2 : CrawlerOut :=
  process_crawl_task 3 "bucket" (fun _ h => h) c9Eff2 c9Run1.seen (some c9Task)

/-- C9: `process_crawl_task` adds the normalised URL to the seen-set *before*
fetching, so after the first delivery times out (nack, no events) the
redelivered task is dropped as already seen: the successful-looking second
run acks without fetching and the whole two-delivery run produces **zero**
`url_crawled` events and zero index tasks, not one of each; the seen-set
does contain the URL exactly once. -/
theorem c9_timeout_then_redelivery_drops_url :
    c9Run1.ack = Ack.nack ∧
    c9Run1.progress = [] ∧ c9Run1.indexTasks = [] ∧
    c9Run1.seen.count (normalizeUrl "http://a.test/") = 1 ∧
    c9Run2.ack = Ack.ack ∧
    c9Run2.progress = [] ∧ c9Run2.indexTasks = [] ∧
    c9Run2.seen = c9Run1.seen := by
  decide

/-! ## C5: the `indexed ≤ crawled` clamp -/

/-- After the clamp, one task satisfies the invariant. -/
theorem clampTask_le (t : TaskEntry) :
    (clampTask t).indexed_urls ≤ (clampTask t).crawled_urls := by
  unfold clampTask
  by_cases h : t.indexed_urls > t.crawled_urls
  · simp [h]
  · simp only [if_neg h]
    omega

/-- Every task coming out of `update_summary_stats` satisfies the invariant. -/
theorem update_summary_stats_clamps (s : AppState) :
    ∀ p ∈ (update_summary_stats s).1.tasks, p.2.indexed_urls ≤ p.2.crawled_urls := by
  intro p hp
  simp only [update_summary_stats, List.mem_map] at hp
  obtain ⟨q, _, rfl⟩ := hp
  exact clampTask_le q.2

/-- The progress callback either drops the event (no task id) or ends in
`update_summary_stats`. -/
theorem listen_to_progress_callback_cases (s : AppState) (data : ProgressMsg) (now : String) :
    listen_to_progress_callback s data now = (s, []) ∨
    ∃ s', listen_to_progress_callback s data now = update_summary_stats s' := by
  by_cases h : truthyS (if truthyS data.task_id then data.task_id else data.job_id) = true
  · right
    simp only [listen_to_progress_callback, h, not_true_eq_false, if_false]
    exact ⟨_, rfl⟩
  · left
    simp [listen_to_progress_callback, h]

/-- C5: `update_summary_stats` — which the progress callback runs after every
event it attributes to a task — clamps `indexed_urls` down to `crawled_urls`
on every task and records a warning naming each clamped task, so after each
progress event is fully handled (and whenever summary statistics are
computed) every tracked task satisfies `indexed_urls ≤ crawled_urls`. -/
theorem c5_indexed_le_crawled :
    (∀ s : AppState, ∀ p ∈ (update_summary_stats s).1.tasks,
       p.2.indexed_urls ≤ p.2.crawled_urls) ∧
    (∀ (s : AppState) (data : ProgressMsg) (now : String),
       (∀ p ∈ s.tasks, p.2.indexed_urls ≤ p.2.crawled_urls) →
       ∀ p ∈ (listen_to_progress_callback s data now).1.tasks,
         p.2.indexed_urls ≤ p.2.crawled_urls) ∧
    (∀ s : AppState, ∀ p ∈ s.tasks, p.2.crawled_urls < p.2.indexed_urls →
       p.2.task_id ∈ (update_summary_stats s).2) := by
  refine ⟨update_summary_stats_clamps, ?_, ?_⟩
  · intro s data now hinv p hp
    rcases listen_to_progress_callback_cases s data now with h | ⟨s', h⟩
    · rw [h] at hp
      exact hinv p hp
    · rw [h] at hp
      exact update_summary_stats_clamps s' p hp
  · intro s p hp hgt
    simp only [update_summary_stats, List.mem_map]
    exact ⟨p, List.mem_filter.2 ⟨hp, by simpa using hgt⟩, rfl⟩

/-- A task that has counted more indexed than crawled URLs. -/
def c5BadTask : TaskEntry :=
  { task_id := some "Z", status := "in_progress",
    crawled_urls := 1, indexed_urls := 5,
    crawled_urls_list := [], indexed_urls_list := [],
    start_time := "s", last_update := "s", progress_events := [],
    total_depth := 1, current_depth := 0, seed_urls := [],
    domain_restriction := none }

/-- A state holding that violating task. -/
def c5BadState : AppState :=
  { initialAppState "2025-01-01T00:00:00" with tasks := [(some "Z", c5BadTask)] }

/-- C5, witness: the clamp and its warning at a concrete violating state. -/
theorem c5_indexed_le_crawled_witness :
    (∀ p ∈ (update_summary_stats c5BadState).1.tasks,
       p.2.indexed_urls ≤ p.2.crawled_urls) ∧
    (∀ p ∈ (listen_to_progress_callback (initialAppState "2025-01-01T00:00:00")
        { node_type := "crawler", event := "url_indexed", task_id := some "Z",
          url := some "http://z.test/" } "2025-01-01T00:00:01").1.tasks,
       p.2.indexed_urls ≤ p.2.crawled_urls) ∧
    (some "Z" : Option String) ∈ (update_summary_stats c5BadState).2 := by
  refine ⟨c5_indexed_le_crawled.1 c5BadState, ?_, ?_⟩
  · exact c5_indexed_le_crawled.2.1 (initialAppState "2025-01-01T00:00:00") _ _
      (by intro p hp; simp [initialAppState] at hp)
  · exact c5_indexed_le_crawled.2.2 c5BadState (some "Z", c5BadTask) (by decide) (by decide)

/-! ## C8: the startup filter -/

/-- A progress event stamped a year before the aggregator's startup time. -/
def c8OldEvt : ProgressMsg :=
  { node_type := "crawler", event := "url_crawled", task_id := some "T-8",
    url := some "http://old.test/", timestamp := some "2024-06-01T00:00:00" }

/-- The aggregator state right after a 2025 startup. -/
def c8Start : AppState := initialAppState "2025-01-01T00:00:00"

/-- C8 counterexample: a progress event whose timestamp precedes the
aggregator's startup time is *not* discarded — `listen_to_progress` has no
startup filter — so the stale event creates and counts a brand-new task. -/
theorem c8_counterexample_old_progress_processed :
    pyStrLt (c8OldEvt.timestamp.getD "").data c8Start.startup_time.data = true ∧
    ((listen_to_progress_callback c8Start c8OldEvt "2025-01-01T00:00:01").1).tasks.map
      (fun p => p.1) = [some "T-8"] ∧
    ((listen_to_progress_callback c8Start c8OldEvt "2025-01-01T00:00:01").1).summary.urls_crawled
      = 1 := by
  refine ⟨by decide, by decide, by decide⟩

/-- C8 (amended): only the health listener filters by startup time — a
health event with a truthy timestamp lexicographically before
`UI_STARTUP_TIME` is acked and leaves the whole state (in particular the
health map) unchanged; progress events are processed regardless of their
timestamp. -/
theorem c8_old_health_event_discarded (s : AppState) (data : HealthMsg)
    (h1 : truthyS data.timestamp)
    (h2 : pyStrLt (data.timestamp.getD "").data s.startup_time.data = true) :
    listen_health_status_callback s data = s := by
  simp [listen_health_status_callback, h1, h2]

/-- C8 amended, witness: a stale 2024 heartbeat against the 2025 startup. -/
theorem c8_old_health_event_discarded_witness :
    listen_health_status_callback c8Start
      { node_type := "crawler", status := "online",
        timestamp := some "2024-06-01T00:00:00" } = c8Start := by
  exact c8_old_health_event_discarded c8Start _ (by decide) (by decide)

/-! ## String lemmas for the normalisation claims -/

theorem lowerStr_append (a b : List Char) :
    lowerStr (a ++ b) = lowerStr a ++ lowerStr b :=
  List.map_append lowerChar a b

theorem lowerStr_cons (c : Char) (l : List Char) :
    lowerStr (c :: l) = lowerChar c :: lowerStr l := rfl

/-- Stripping trailing slashes stops at any non-slash character: the prefix
up to it is untouched. -/
theorem rstripSlash_append_cons (a : List Char) {c : Char} (hc : c ≠ '/') (b : List Char) :
    rstripSlash (a ++ c :: b) = a ++ c :: rstripSlash b := by
  unfold rstripSlash
  rw [List.reverse_append, List.reverse_cons, List.append_assoc, List.dropWhile_append]
  have hcpred : (c == '/') = false := by
    simp [hc]
  by_cases hb : (b.reverse.dropWhile (fun x => x == '/')) = []
  · simp [hb, hcpred]
  · simp only [hb, List.dropWhile_append]
    simp [hb, hcpred]

theorem rstripSlash_nil : rstripSlash [] = [] := rfl

theorem lowerChar_sep :
    lowerChar ':' = ':' ∧ lowerChar '/' = '/' ∧ lowerChar '?' = '?' := by decide

/-! ## C7: what the normalisation actually returns

`normalizeSpecWords` is written from the spec's words, to be compared with
`normalize_url` (from the source): lower only scheme and host, remove only
the path's trailing slash, keep the query unchanged, drop the fragment.
-/

/-- The normalisation described by the spec for C7. -/
def normalizeSpecWords (url : List Char) : List Char :=
  let p := pyUrlparse url
  let path' := if p.path.getLast? = some '/' then p.path.dropLast else p.path
  lowerStr p.scheme ++ ':' :: '/' :: '/' :: [] ++ lowerStr p.netloc ++ path' ++
    (if p.query = [] then [] else '?' :: p.query)

/-- C7 counterexample: on `http://a.com/P?Q=V` the crawler's normalisation
lower-cases the path and the query as well — it returns
`http://a.com/p?q=v`, not the spec's `http://a.com/P?Q=V`. -/
theorem c7_counterexample_path_query_lowercased :
    normalize_url ("http://a.com/P?Q=V").data = ("http://a.com/p?q=v").data ∧
    normalizeSpecWords ("http://a.com/P?Q=V").data = ("http://a.com/P?Q=V").data ∧
    normalize_url ("http://a.com/P?Q=V").data ≠
      normalizeSpecWords ("http://a.com/P?Q=V").data := by
  refine ⟨by decide, by decide, by decide⟩

/-- C7 as amended: the whole URL — scheme, host, path and query — is
lower-cased, the fragment (and any `;`-parameters split off the last path
segment by `urlparse`) is removed, and all trailing `/` characters are
stripped from the end of the resulting string: from the query when one is
present, otherwise from the path. -/
def normalizeAmended (url : List Char) : List Char :=
  let p := pyUrlparse url
  if p.query = [] then
    rstripSlash (lowerStr p.scheme ++ ':' :: '/' :: '/' :: [] ++
      lowerStr p.netloc ++ lowerStr p.path)
  else
    lowerStr p.scheme ++ ':' :: '/' :: '/' :: [] ++ lowerStr p.netloc ++ lowerStr p.path ++
      '?' :: rstripSlash (lowerStr p.query)

/-- C7 (amended): `normalize_url` agrees with the amended description on
every input. -/
theorem c7_normalize_url_characterised (u : List Char) :
    normalize_url u = normalizeAmended u := by
  unfold normalize_url normalizeAmended
  by_cases hq : (pyUrlparse u).query = []
  · simp only [hq, if_true, if_pos]
    simp [lowerStr_append, lowerStr_cons, lowerChar_sep.1, lowerChar_sep.2.1]
  · simp only [hq, if_neg, if_false]
    rw [lowerStr_append, lowerStr_cons]
    rw [lowerChar_sep.2.2]
    rw [rstripSlash_append_cons _ (by decide)]
    simp [lowerStr_append, lowerStr_cons, lowerChar_sep.1, lowerChar_sep.2.1]

/-! ## C4: duplicate-submission coalescing -/

/-- A `job_received` progress event carrying seed URLs (the shape the
aggregator's dedup logic reads; the Master's real events omit `seed_urls`). -/
def jobReceivedEvt (t : String) (seeds : List String) (ts : String) : ProgressMsg :=
  { node_type := "master", event := "job_received", job_id := some t,
    timestamp := some ts, seed_urls := some seeds }

theorem truthyS_some {t : String} (h : t ≠ "") : truthyS (some t) = true := by
  simp [truthyS, h]

/-- The master's handling of one UI submission of the seed set
`["http://dup.test/"]` under job id `tid`. -/
def c4Submit (tid : String) : MasterOut :=
  handle_new_job
    (.json { task_id := some tid,
             gcs_path := some ("gs://bucket/crawl_tasks/" ++ tid ++ ".json") })
    (.json (.seed ["http://dup.test/"] (some 1) none))
    (fun _ => "U-0") (fun _ => true) "host" "2025-01-01T00:00:01"

/-- The progress events the aggregator observes from two submissions of the
identical seed set, and the aggregator state after consuming them. -/
def c4Final : AppState :=
  aggRun (initialAppState "2025-01-01T00:00:00")
    ((c4Submit "J-1").progress ++ (c4Submit "J-2").progress) "2025-01-01T00:00:02"

/-- C4 counterexample: two submissions with the identical seed-URL set,
observed while the first task is still live, leave **two** task entries in
the aggregator, not one: the Master's `job_received` events carry only a
`job_id` and no `seed_urls`, so the sorted-seed-tuple coalescing never
fires and the second event is keyed under its own job id. -/
theorem c4_counterexample_duplicate_submissions_two_entries :
    (c4Submit "J-1").progress.map (fun e => (e.event, e.seed_urls)) =
      [("job_received", none), ("url_scheduled", none)] ∧
    c4Final.tasks.map (fun p => p.1) = [some "J-1", some "J-2"] ∧
    c4Final.tasks.map (fun p => p.2.status) = ["submitted", "submitted"] := by
  refine ⟨by decide, by decide, by decide⟩

/-- C4 (amended): the coalescing applies only to `job_received` events that
themselves carry a non-empty `seed_urls` list.  For two such events with the
same sorted seed tuple, received while the first task is live, the second is
redirected to the existing task id: the aggregator holds exactly one entry,
keyed by the first event's job id, and both events land on its timeline.
(The Master's `job_received` events carry no `seed_urls`, so duplicate
submissions are not coalesced — see the counterexample.) -/
theorem c4_seed_coalescing_with_seed_urls (t1 t2 : String) (seeds1 seeds2 : List String)
    (ts1 ts2 now startup : String)
    (ht1 : t1 ≠ "") (ht2 : t2 ≠ "")
    (hs1 : seeds1 ≠ []) (hs2 : seeds2 ≠ [])
    (hkey : seedKey seeds2 = seedKey seeds1) :
    (aggRun (initialAppState startup)
      [jobReceivedEvt t1 seeds1 ts1, jobReceivedEvt t2 seeds2 ts2] now).tasks.map Prod.fst
      = [some t1] ∧
    (aggRun (initialAppState startup)
      [jobReceivedEvt t1 seeds1 ts1, jobReceivedEvt t2 seeds2 ts2] now).tasks.map
        (fun p => p.2.progress_events.length) = [2] := by
  refine ⟨?_, ?_⟩
  all_goals
    simp only [aggRun, List.foldl]
    simp only [listen_to_progress_callback, progressResolveTid, progressEnsureEntry,
      progressStamp, progressTrim, jobReceivedEvt, initialAppState,
      applyProgressEvent, update_summary_stats, dictGet, dictSet, dictModify,
      truthyS_some ht1, truthyS_some ht2, hkey, hs1, hs2]
    simp [dictGet, dictSet, dictModify, hs1, hs2, truthyS, ht1, ht2, trimList, hkey,
      clampTask, progressResolveTid, progressEnsureEntry, progressStamp, progressTrim]

/-! ## C10: no worker publishes lifecycle events; terminal status only via
the aggregator's own mechanisms -/

/-- The progress-event kinds `MasterNode` can publish
(`publish_progress_metric` call sites in `master_node.py`). -/
def masterKinds : List String :=
  ["job_received", "task_continuation", "urls_scheduled", "url_scheduled"]

/-- The progress-event kinds `CrawlerNode` can publish
(`publish_crawler_metrics` call sites in `crawler_node.py`). -/
def crawlerKinds : List String := ["url_skipped", "url_crawled", "new_urls_found"]

/-- Every progress event of a `handle_new_job` run is of a master kind. -/
theorem master_event_kinds (msg : InMessage) (blob : BlobRead)
    (freshIds : Nat → String) (pubOk : Nat → Bool) (host now : String) :
    ∀ e ∈ (handle_new_job msg blob freshIds pubOk host now).progress,
      e.event ∈ masterKinds := by
  intro e he
  cases msg with
  | empty => exact absurd he (List.not_mem_nil e)
  | malformed => exact absurd he (List.not_mem_nil e)
  | json env =>
    simp only [handle_new_job] at he
    repeat' split at he
    all_goals
      simp only [List.mem_append, List.mem_cons, List.mem_singleton,
        List.not_mem_nil, or_false, false_or] at he
    all_goals try exact he.elim
    all_goals first
      | (subst he; simp [masterKinds])
      | (rcases he with rfl | rfl <;> simp [masterKinds])

/-- Every progress event of the crawler's HTML-response phase is of a
crawler kind. -/
theorem response_event_kinds (bucket : String) (urljoin : String → String → String)
    (eff : CrawlerEffects) (task_id url : String) (depth depth_limit : Int)
    (dr : Option String) (seen1 : List String)
    (final_url content_type : String) (hrefs : List String) :
    ∀ e ∈ (crawler_handle_response bucket urljoin eff task_id url depth depth_limit dr seen1
        final_url content_type hrefs).progress, e.event ∈ crawlerKinds := by
  intro e he
  unfold crawler_handle_response at he
  simp only [] at he
  repeat' split at he
  all_goals
    simp only [List.mem_append, List.mem_cons, List.mem_singleton,
      List.not_mem_nil, or_false, false_or] at he
  all_goals first
    | (subst he; simp [crawlerKinds])
    | (rcases he with rfl | rfl <;> simp [crawlerKinds])

/-- Every progress event of the crawler's fetch phase is of a crawler kind. -/
theorem fetch_phase_event_kinds (bucket : String) (urljoin : String → String → String)
    (eff : CrawlerEffects) (task_id url : String) (depth depth_limit : Int)
    (dr : Option String) (seen1 : List String) :
    ∀ e ∈ (crawler_fetch_phase bucket urljoin eff task_id url depth depth_limit dr
        seen1).progress, e.event ∈ crawlerKinds := by
  intro e he
  unfold crawler_fetch_phase at he
  split at he
  · exact absurd he (List.not_mem_nil e)
  · exact absurd he (List.not_mem_nil e)
  · exact response_event_kinds bucket urljoin eff task_id url depth depth_limit dr seen1
      _ _ _ e he

/-- Every progress event of a `process_crawl_task` run is of a crawler kind. -/
theorem crawler_event_kinds (maxDepth : Int) (bucket : String)
    (urljoin : String → String → String) (eff : CrawlerEffects)
    (seen : List String) (msg : Option CrawlTaskData) :
    ∀ e ∈ (process_crawl_task maxDepth bucket urljoin eff seen msg).progress,
      e.event ∈ crawlerKinds := by
  intro e he
  cases msg with
  | none => exact absurd he (List.not_mem_nil e)
  | some td =>
    rw [process_crawl_task.eq_2] at he
    simp only [] at he
    repeat' split at he
    all_goals try exact absurd he (List.not_mem_nil e)
    all_goals first
      | (simp only [List.mem_singleton] at he; subst he; simp [crawlerKinds])
      | exact fetch_phase_event_kinds _ _ _ _ _ _ _ _ _ e he

/-- Every progress event of a `process_indexing_task` run is `url_indexed`. -/
theorem indexer_event_kinds (bucket : String) (msg : Option IndexTaskData)
    (blobText : Option String) (esResult : EsResult) (now : String) :
    ∀ e ∈ (process_indexing_task bucket msg blobText esResult now).progress,
      e.event = "url_indexed" := by
  intro e he
  cases msg with
  | none => exact absurd he (List.not_mem_nil e)
  | some td =>
    simp only [process_indexing_task] at he
    repeat' split at he
    all_goals try exact absurd he (List.not_mem_nil e)
    all_goals
      simp only [List.mem_singleton] at he
    all_goals (subst he; rfl)

/-- Terminal statuses are only inherited: every task of `new` whose status is
terminal already appears in `old` under the same key with the same status. -/
def statusTracks (old new : List (Option String × TaskEntry)) : Prop :=
  ∀ p ∈ new, (p.2.status = "completed" ∨ p.2.status = "failed") →
    ∃ q ∈ old, q.1 = p.1 ∧ q.2.status = p.2.status

theorem statusTracks_refl (d : List (Option String × TaskEntry)) : statusTracks d d :=
  fun p hp _ => ⟨p, hp, rfl, rfl⟩

theorem statusTracks_trans {a b c : List (Option String × TaskEntry)}
    (h1 : statusTracks a b) (h2 : statusTracks b c) : statusTracks a c := by
  intro p hp ht
  obtain ⟨q, hq, hk, hs⟩ := h2 p hp ht
  obtain ⟨r, hr, hk2, hs2⟩ := h1 q hq (by rw [hs]; exact ht)
  exact ⟨r, hr, hk2.trans hk, hs2.trans hs⟩

/-- A per-entry mutation that only ever keeps the status or moves it to
`in_progress` never introduces a terminal status. -/
theorem statusTracks_dictModify (d : List (Option String × TaskEntry))
    (k : Option String) (f : TaskEntry → TaskEntry)
    (hf : ∀ t, (f t).status = t.status ∨ (f t).status = "in_progress") :
    statusTracks d (dictModify d k f) := by
  intro p hp ht
  simp only [dictModify, List.mem_map] at hp
  obtain ⟨q, hq, rfl⟩ := hp
  by_cases h : (q.1 == k) = true
  · simp only [h, if_true] at ht ⊢
    rcases hf q.2 with hs | hs
    · exact ⟨q, hq, rfl, by simpa [h] using hs.symm⟩
    · rcases ht with ht | ht <;> simp [hs] at ht
  · simp only [h] at ht ⊢
    exact ⟨q, hq, rfl, by simp [h]⟩

/-- Appending a non-terminal entry never introduces a terminal status. -/
theorem statusTracks_append (d : List (Option String × TaskEntry))
    (k : Option String) (e : TaskEntry)
    (he : e.status = "submitted" ∨ e.status = "in_progress") :
    statusTracks d (d ++ [(k, e)]) := by
  intro p hp ht
  rcases List.mem_append.1 hp with h | h
  · exact ⟨p, h, rfl, rfl⟩
  · simp only [List.mem_singleton] at h
    subst h
    rcases he with hs | hs <;> rcases ht with ht | ht <;> simp [hs] at ht

theorem clampTask_status (t : TaskEntry) : (clampTask t).status = t.status := by
  unfold clampTask
  split <;> rfl

/-- `update_summary_stats` never changes a task's status. -/
theorem statusTracks_update_summary (s : AppState) :
    statusTracks s.tasks (update_summary_stats s).1.tasks := by
  intro p hp ht
  simp only [update_summary_stats, List.mem_map] at hp
  obtain ⟨q, hq, rfl⟩ := hp
  exact ⟨q, hq, rfl, (clampTask_status q.2).symm⟩

/-- The coalescing step never touches the task dictionary. -/
theorem progressResolveTid_tasks (s : AppState) (data : ProgressMsg)
    (task_id0 : Option String) :
    (progressResolveTid s data task_id0).2.tasks = s.tasks := by
  unfold progressResolveTid
  simp only []
  repeat' split
  all_goals rfl

/-- Entry creation only adds a `submitted`/`in_progress` entry. -/
theorem statusTracks_ensureEntry (s : AppState) (tid : Option String)
    (data : ProgressMsg) (ts : String) :
    statusTracks s.tasks (progressEnsureEntry s tid data ts).tasks := by
  unfold progressEnsureEntry
  simp only []
  repeat' split
  all_goals
    first
      | exact statusTracks_refl _
      | exact statusTracks_append _ _ _ (Or.inl rfl)
      | exact statusTracks_append _ _ _ (Or.inr rfl)

/-- `statusTracks_dictModify`, phrased on the state-update form used by the
handler's stages. -/
theorem statusTracks_setTasks (s : AppState) (k : Option String)
    (f : TaskEntry → TaskEntry)
    (hf : ∀ t, (f t).status = t.status ∨ (f t).status = "in_progress") :
    statusTracks s.tasks ({ s with tasks := dictModify s.tasks k f } : AppState).tasks :=
  statusTracks_dictModify s.tasks k f hf

/-- As `statusTracks_setTasks`, for the branch that also rewrites the
seed-URL map. -/
theorem statusTracks_setTasks2 (s : AppState) (k : Option String)
    (f : TaskEntry → TaskEntry) (m : List (List String × Option String))
    (hf : ∀ t, (f t).status = t.status ∨ (f t).status = "in_progress") :
    statusTracks s.tasks
      ({ { s with tasks := dictModify s.tasks k f } with
          seed_url_to_task := m } : AppState).tasks :=
  statusTracks_dictModify s.tasks k f hf

/-- The `last_update`/timeline stamp never changes a status. -/
theorem statusTracks_stamp (s : AppState) (tid : Option String)
    (data : ProgressMsg) (ts : String) :
    statusTracks s.tasks (progressStamp s tid data ts).tasks := by
  unfold progressStamp
  exact statusTracks_setTasks _ _ _ (fun t => Or.inl rfl)

/-- The bounded-list trim never changes a status. -/
theorem statusTracks_trim (s : AppState) (tid : Option String) :
    statusTracks s.tasks (progressTrim s tid).tasks := by
  unfold progressTrim
  exact statusTracks_setTasks _ _ _ (fun t => Or.inl rfl)

/-- The event dispatch introduces no terminal status unless the event is
`task_completed` or `task_failed`. -/
theorem statusTracks_applyEvent (s : AppState) (tid : Option String)
    (data : ProgressMsg) (ts : String)
    (h1 : data.event ≠ "task_completed") (h2 : data.event ≠ "task_failed") :
    statusTracks s.tasks (applyProgressEvent s tid data ts).tasks := by
  have hb1 : (data.event == "task_completed") = false := by simp [h1]
  have hb2 : (data.event == "task_failed") = false := by simp [h2]
  unfold applyProgressEvent
  simp only [hb1, hb2]
  repeat' split
  all_goals try exact statusTracks_refl _
  all_goals
    first
      | exact statusTracks_setTasks _ _ _ (by
          intro t
          try simp only []
          repeat' split
          all_goals simp_all)
      | exact statusTracks_setTasks2 _ _ _ _ (by
          intro t
          try simp only []
          repeat' split
          all_goals simp_all)

/-- The progress callback introduces no terminal status unless the event is
`task_completed` or `task_failed`. -/
theorem statusTracks_callback (s : AppState) (data : ProgressMsg) (now : String)
    (h1 : data.event ≠ "task_completed") (h2 : data.event ≠ "task_failed") :
    statusTracks s.tasks ((listen_to_progress_callback s data now).1).tasks := by
  simp only [listen_to_progress_callback]
  repeat' split
  all_goals
    first
      | exact statusTracks_refl _
      | (refine statusTracks_trans ?_ (statusTracks_update_summary _)
         refine statusTracks_trans ?_ (statusTracks_trim _ _)
         refine statusTracks_trans ?_ (statusTracks_applyEvent _ _ _ _ h1 h2)
         refine statusTracks_trans ?_ (statusTracks_stamp _ _ _ _)
         refine statusTracks_trans ?_ (statusTracks_ensureEntry _ _ _ _)
         rw [progressResolveTid_tasks]
         exact statusTracks_refl _)

/-- C4 amended, witness: two ids, the same seed set in different orders. -/
theorem c4_seed_coalescing_with_seed_urls_witness :
    (aggRun (initialAppState "2025-01-01T00:00:00")
      [jobReceivedEvt "T-A" ["http://b.test/", "http://a.test/"] "2025-01-01T00:00:01",
       jobReceivedEvt "T-B" ["http://a.test/", "http://b.test/"] "2025-01-01T00:00:02"]
      "2025-01-01T00:00:03").tasks.map Prod.fst = [some "T-A"] := by
  exact (c4_seed_coalescing_with_seed_urls "T-A" "T-B"
    ["http://b.test/", "http://a.test/"] ["http://a.test/", "http://b.test/"]
    "2025-01-01T00:00:01" "2025-01-01T00:00:02" "2025-01-01T00:00:03" "2025-01-01T00:00:00"
    (by decide) (by decide) (by decide) (by decide) (by decide)).1

/-! ## C10: terminal statuses come only from the aggregator's own sweep -/

/-- Every task of `new` either keeps the key, status, error and completion
details it had in `old`, or was failed by the stall check (status `failed`
with one of the two stall error strings), or was auto-completed by the
`MAX_ACTIVE_TASKS` cap (status `completed` with the `limit_active_tasks`
auto-completion marker). -/
def sweepTracks (old new : List (Option String × TaskEntry)) : Prop :=
  ∀ p ∈ new,
    (∃ q ∈ old, q.1 = p.1 ∧ q.2.status = p.2.status ∧ q.2.error = p.2.error ∧
       q.2.completion_details = p.2.completion_details) ∨
    (p.2.status = "failed" ∧
       (p.2.error = some stallErrorSubmitted ∨ p.2.error = some stallErrorInProgress)) ∨
    (p.2.status = "completed" ∧
       p.2.completion_details = some (CompletionDetails.autoCompleted "limit_active_tasks"))

theorem clampTask_error (t : TaskEntry) : (clampTask t).error = t.error := by
  unfold clampTask
  split <;> rfl

theorem clampTask_completion (t : TaskEntry) :
    (clampTask t).completion_details = t.completion_details := by
  unfold clampTask
  split <;> rfl

/-- The stall pass either keeps a task's status/error/completion details or
fails it with a stall error. -/
theorem sweepTracks_stallMap (s : List (Option String × TaskEntry))
    (nowIso : String) (timeDiff : String → Option Int) :
    sweepTracks s (s.map (stallPass nowIso timeDiff)) := by
  intro p hp
  simp only [List.mem_map] at hp
  obtain ⟨q, hq, rfl⟩ := hp
  unfold stallPass
  simp only []
  repeat' split
  all_goals
    first
      | exact Or.inl ⟨q, hq, rfl, rfl, rfl, rfl⟩
      | exact Or.inr (Or.inl ⟨rfl, Or.inl rfl⟩)
      | exact Or.inr (Or.inl ⟨rfl, Or.inr rfl⟩)

/-- One cap auto-completion step either leaves a task alone or completes it
with the `limit_active_tasks` marker. -/
theorem sweepTracks_autoComplete (a : List (Option String × TaskEntry))
    (nowIso : String) (st : AppState) (q : Option String × String)
    (h : sweepTracks a st.tasks) :
    sweepTracks a (autoCompleteOldest nowIso st q).tasks := by
  intro p hp
  simp only [autoCompleteOldest, dictModify, List.mem_map] at hp
  obtain ⟨r, hr, rfl⟩ := hp
  by_cases hk : (r.1 == q.1) = true
  · simp only [hk, if_true]
    by_cases hs : (r.2.status == "in_progress" || r.2.status == "submitted") = true
    · simp only [hs, if_true]
      exact Or.inr (Or.inr ⟨by simp, by simp⟩)
    · simp only [hs, if_false]
      exact h r hr
  · simp only [hk, if_false]
    exact h r hr

/-- Folding the cap auto-completion over any list of task ids preserves
`sweepTracks`. -/
theorem sweepTracks_capFold (a : List (Option String × TaskEntry)) (nowIso : String) :
    ∀ (l : List (Option String × String)) (st : AppState),
      sweepTracks a st.tasks →
      sweepTracks a (l.foldl (autoCompleteOldest nowIso) st).tasks
  | [], _, h => h
  | q :: l, st, h =>
    sweepTracks_capFold a nowIso l (autoCompleteOldest nowIso st q)
      (sweepTracks_autoComplete a nowIso st q h)

/-- The summary recomputation preserves `sweepTracks` (the clamp keeps
status, error and completion details). -/
theorem sweepTracks_update_summary (a : List (Option String × TaskEntry))
    (s : AppState) (h : sweepTracks a s.tasks) :
    sweepTracks a (update_summary_stats s).1.tasks := by
  intro p hp
  simp only [update_summary_stats, List.mem_map] at hp
  obtain ⟨r, hr, rfl⟩ := hp
  rcases h r hr with ⟨q, hq, hk, hs, he, hc⟩ | ⟨hs, he⟩ | ⟨hs, hc⟩
  · exact Or.inl ⟨q, hq, hk, hs.trans (clampTask_status r.2).symm,
      he.trans (clampTask_error r.2).symm, hc.trans (clampTask_completion r.2).symm⟩
  · exact Or.inr (Or.inl ⟨(clampTask_status r.2).trans hs,
      by rw [clampTask_error]; exact he⟩)
  · exact Or.inr (Or.inr ⟨(clampTask_status r.2).trans hs,
      (clampTask_completion r.2).trans hc⟩)

/-- One sweep of `check_stalled_tasks` only fails tasks with a stall error or
auto-completes them with the cap marker; every other task keeps its status,
error and completion details. -/
theorem sweepTracks_sweep (s : AppState) (nowIso : String)
    (timeDiff : String → Option Int) :
    sweepTracks s.tasks (check_stalled_tasks_sweep s nowIso timeDiff).1.tasks := by
  unfold check_stalled_tasks_sweep
  simp only []
  apply sweepTracks_update_summary
  split
  · exact sweepTracks_capFold _ _ _ _ (sweepTracks_stallMap _ _ _)
  · exact sweepTracks_stallMap _ _ _

/-- C10: no pipeline worker ever publishes a `task_started`, `task_completed`
or `task_failed` progress event — the master's progress events are all drawn
from `masterKinds`, the crawler's from `crawlerKinds`, the indexer's are all
`url_indexed`, and none of those kinds is a task-lifecycle kind — so the
aggregator's progress callback never moves a task into a terminal status on
any worker event, and a tracked task reaches `completed`/`failed` only
through the aggregator's own sweep: stall detection fails a task with one of
the two stall error strings, and the `MAX_ACTIVE_TASKS` cap completes it
with the `limit_active_tasks` auto-completion marker. -/
theorem c10_terminal_status_only_from_aggregator :
    (∀ k ∈ masterKinds ++ crawlerKinds ++ ["url_indexed"],
       k ∉ ["task_started", "task_completed", "task_failed"]) ∧
    (∀ (msg : InMessage) (blob : BlobRead) (freshIds : Nat → String)
       (pubOk : Nat → Bool) (host now : String),
       ∀ e ∈ (handle_new_job msg blob freshIds pubOk host now).progress,
         e.event ∈ masterKinds) ∧
    (∀ (maxDepth : Int) (bucket : String) (urljoin : String → String → String)
       (eff : CrawlerEffects) (seen : List String) (msg : Option CrawlTaskData),
       ∀ e ∈ (process_crawl_task maxDepth bucket urljoin eff seen msg).progress,
         e.event ∈ crawlerKinds) ∧
    (∀ (bucket : String) (msg : Option IndexTaskData) (blobText : Option String)
       (esResult : EsResult) (now : String),
       ∀ e ∈ (process_indexing_task bucket msg blobText esResult now).progress,
         e.event = "url_indexed") ∧
    (∀ (s : AppState) (data : ProgressMsg) (now : String),
       data.event ≠ "task_completed" → data.event ≠ "task_failed" →
       statusTracks s.tasks ((listen_to_progress_callback s data now).1).tasks) ∧
    (∀ (s : AppState) (nowIso : String) (timeDiff : String → Option Int),
       sweepTracks s.tasks (check_stalled_tasks_sweep s nowIso timeDiff).1.tasks) := by
  exact ⟨by decide, master_event_kinds, crawler_event_kinds, indexer_event_kinds,
    statusTracks_callback, sweepTracks_sweep⟩

/-! ## C6: idempotence of `normalize_url` -/

theorem lowerChar_toNat (c : Char) (h : 65 ≤ c.toNat ∧ c.toNat ≤ 90) :
    (lowerChar c).toNat = c.toNat + 32 := by
  unfold lowerChar
  rw [if_pos h]
  have hv : (c.toNat + 32).isValidChar := Or.inl (by omega)
  rw [Char.ofNat, dif_pos hv]
  rfl

theorem lowerChar_eq_self (c : Char) (h : ¬ (65 ≤ c.toNat ∧ c.toNat ≤ 90)) :
    lowerChar c = c := by
  rw [lowerChar, if_neg h]

theorem lowerChar_idem (c : Char) : lowerChar (lowerChar c) = lowerChar c := by
  by_cases h : 65 ≤ c.toNat ∧ c.toNat ≤ 90
  · have h2 := lowerChar_toNat c h
    exact lowerChar_eq_self _ (by omega)
  · rw [lowerChar_eq_self c h]
    exact lowerChar_eq_self c h

/-- Characters below `'A'` are produced by `lowerChar` only from themselves. -/
theorem lowerChar_eq_low_iff (c d : Char) (hd : d.toNat < 65) :
    lowerChar c = d ↔ c = d := by
  constructor
  · intro h
    by_cases hc : 65 ≤ c.toNat ∧ c.toNat ≤ 90
    · have h2 := lowerChar_toNat c hc
      rw [h] at h2
      omega
    · rwa [lowerChar_eq_self c hc] at h
  · intro h
    rw [h]
    exact lowerChar_eq_self d (by omega)

theorem isAlpha_toNat (c : Char) :
    c.isAlpha = true ↔ (65 ≤ c.toNat ∧ c.toNat ≤ 90) ∨ (97 ≤ c.toNat ∧ c.toNat ≤ 122) := by
  simp [Char.isAlpha, Char.isUpper, Char.isLower, Char.le_def, Char.toNat,
    UInt32.le_def, BitVec.le_def, UInt32.toNat]

theorem isDigit_toNat (c : Char) :
    c.isDigit = true ↔ 48 ≤ c.toNat ∧ c.toNat ≤ 57 := by
  simp [Char.isDigit, Char.le_def, Char.toNat, UInt32.le_def, BitVec.le_def, UInt32.toNat]

theorem isAlpha_lowerChar (c : Char) (h : c.isAlpha = true) :
    (lowerChar c).isAlpha = true := by
  rcases (isAlpha_toNat c).1 h with hc | hc
  · rw [isAlpha_toNat, lowerChar_toNat c hc]
    omega
  · rw [lowerChar_eq_self c (by omega)]
    exact h

theorem isSchemeChar_lowerChar (c : Char) (h : isSchemeChar c = true) :
    isSchemeChar (lowerChar c) = true := by
  by_cases hc : 65 ≤ c.toNat ∧ c.toNat ≤ 90
  · have ha : (lowerChar c).isAlpha = true := by
      rw [isAlpha_toNat, lowerChar_toNat c hc]
      omega
    simp [isSchemeChar, ha]
  · rw [lowerChar_eq_self c hc]
    exact h

theorem isSchemeChar_toNat (c : Char) (h : isSchemeChar c = true) :
    (48 ≤ c.toNat ∧ c.toNat ≤ 57) ∨ (65 ≤ c.toNat ∧ c.toNat ≤ 90) ∨
    (97 ≤ c.toNat ∧ c.toNat ≤ 122) ∨ c.toNat = 43 ∨ c.toNat = 45 ∨ c.toNat = 46 := by
  simp only [isSchemeChar, Bool.or_eq_true] at h
  rcases h with (((ha | hd) | hp) | hm) | hdot
  · rcases (isAlpha_toNat c).1 ha with h | h
    · exact Or.inr (Or.inl h)
    · exact Or.inr (Or.inr (Or.inl h))
  · exact Or.inl ((isDigit_toNat c).1 hd)
  · have hc : c = '+' := by simpa using hp
    rw [hc]
    right; right; right; left; decide
  · have hc : c = '-' := by simpa using hm
    rw [hc]
    right; right; right; right; left; decide
  · have hc : c = '.' := by simpa using hdot
    rw [hc]
    right; right; right; right; right; decide

/-- No character of a well-formed scheme is `':'`, `'/'`, `'?'` or `'#'`. -/
theorem scheme_no_char (a : Char) (t : List Char) (ha : a.isAlpha = true)
    (ht : t.all isSchemeChar = true) (d : Char)
    (hd : d.toNat = 58 ∨ d.toNat = 47 ∨ d.toNat = 63 ∨ d.toNat = 35) :
    d ∉ a :: t := by
  intro hmem
  rcases List.mem_cons.1 hmem with rfl | hmem
  · rcases (isAlpha_toNat d).1 ha with h | h <;> omega
  · have hsc := isSchemeChar_toNat d (List.all_eq_true.1 ht d hmem)
    rcases hsc with h | h | h | h | h | h <;> omega

theorem pyTakeWhile_all {α : Type} {p : α → Bool} :
    ∀ (l : List α), (∀ c ∈ l, p c = true) → l.takeWhile p = l
  | [], _ => rfl
  | a :: l, h => by
    rw [List.takeWhile_cons_of_pos (h a (List.mem_cons_self a l))]
    rw [pyTakeWhile_all l (fun c hc => h c (List.mem_cons_of_mem a hc))]

theorem pyDropWhile_all {α : Type} {p : α → Bool} :
    ∀ (l : List α), (∀ c ∈ l, p c = true) → l.dropWhile p = []
  | [], _ => rfl
  | a :: l, h => by
    rw [List.dropWhile_cons_of_pos (h a (List.mem_cons_self a l))]
    exact pyDropWhile_all l (fun c hc => h c (List.mem_cons_of_mem a hc))

theorem pyTakeWhile_append {α : Type} {p : α → Bool} :
    ∀ (l₁ l₂ : List α), (∀ c ∈ l₁, p c = true) →
      (l₁ ++ l₂).takeWhile p = l₁ ++ l₂.takeWhile p
  | [], l₂, _ => rfl
  | a :: l₁, l₂, h => by
    rw [List.cons_append, List.takeWhile_cons_of_pos (h a (List.mem_cons_self a l₁))]
    rw [pyTakeWhile_append l₁ l₂ (fun c hc => h c (List.mem_cons_of_mem a hc))]
    rfl

theorem pyDropWhile_append {α : Type} {p : α → Bool} :
    ∀ (l₁ l₂ : List α), (∀ c ∈ l₁, p c = true) →
      (l₁ ++ l₂).dropWhile p = l₂.dropWhile p
  | [], l₂, _ => rfl
  | a :: l₁, l₂, h => by
    rw [List.cons_append, List.dropWhile_cons_of_pos (h a (List.mem_cons_self a l₁))]
    exact pyDropWhile_append l₁ l₂ (fun c hc => h c (List.mem_cons_of_mem a hc))

theorem pyDropWhile_eq_self {α : Type} {p : α → Bool} (l : List α)
    (h : ∀ c ∈ l, p c = false) : l.dropWhile p = l := by
  cases l with
  | nil => rfl
  | cons a l => exact List.dropWhile_cons_of_neg (by simp [h a (List.mem_cons_self a l)])

theorem pyDropWhile_idem {α : Type} (p : α → Bool) :
    ∀ (l : List α), (l.dropWhile p).dropWhile p = l.dropWhile p
  | [] => rfl
  | a :: l => by
    by_cases h : p a = true
    · rw [List.dropWhile_cons_of_pos h]
      exact pyDropWhile_idem p l
    · rw [List.dropWhile_cons_of_neg (by simpa using h),
        List.dropWhile_cons_of_neg (by simpa using h)]

theorem lowerStr_idem (l : List Char) : lowerStr (lowerStr l) = lowerStr l := by
  simp only [lowerStr, List.map_map]
  exact List.map_congr_left fun c _ => lowerChar_idem c

/-- A character below `'A'` is in `lowerStr l` only if it is in `l`. -/
theorem not_mem_lowerStr (l : List Char) (d : Char) (hd : d.toNat < 65) (h : d ∉ l) :
    d ∉ lowerStr l := by
  intro hm
  simp only [lowerStr, List.mem_map] at hm
  obtain ⟨c, hc, he⟩ := hm
  have : c = d := (lowerChar_eq_low_iff c d hd).1 he
  rw [this] at hc
  exact h hc

theorem all_not_delim_lowerStr (l : List Char)
    (h : l.all (fun c => !isNetlocDelim c) = true) :
    (lowerStr l).all (fun c => !isNetlocDelim c) = true := by
  rw [List.all_eq_true] at h ⊢
  intro x hx
  simp only [lowerStr, List.mem_map] at hx
  obtain ⟨c, hc, rfl⟩ := hx
  have hcl := h c hc
  by_cases hA : 65 ≤ c.toNat ∧ c.toNat ≤ 90
  · have ht := lowerChar_toNat c hA
    have hne : ∀ d : Char, d.toNat < 65 → (lowerChar c == d) = false := fun d hd => by
      rw [beq_eq_false_iff_ne]
      intro he
      rw [he] at ht
      omega
    simp only [isNetlocDelim, hne '/' (by decide), hne '?' (by decide),
      hne '#' (by decide), Bool.or_false, Bool.not_false]
  · rwa [lowerChar_eq_self c hA]

theorem all_scheme_lowerStr (t : List Char) (h : t.all isSchemeChar = true) :
    (lowerStr t).all isSchemeChar = true := by
  rw [List.all_eq_true] at h ⊢
  intro x hx
  simp only [lowerStr, List.mem_map] at hx
  obtain ⟨c, hc, rfl⟩ := hx
  exact isSchemeChar_lowerChar c (h c hc)

theorem rstripSlash_idem (l : List Char) :
    rstripSlash (rstripSlash l) = rstripSlash l := by
  unfold rstripSlash
  rw [List.reverse_reverse, pyDropWhile_idem]

theorem rstripSlash_append_of_ne (a b : List Char) (h : rstripSlash b ≠ []) :
    rstripSlash (a ++ b) = a ++ rstripSlash b := by
  have hb : (b.reverse.dropWhile (fun c => c == '/')).isEmpty = false := by
    cases he : b.reverse.dropWhile (fun c => c == '/') with
    | nil => exact absurd (by unfold rstripSlash; rw [he]; rfl) h
    | cons x xs => rfl
  unfold rstripSlash
  simp only [List.reverse_append, List.dropWhile_append, hb, Bool.false_eq_true,
    if_false]
  rw [List.reverse_reverse]

theorem rstripSlash_append_no_slash (a b : List Char) (h : '/' ∉ a) :
    rstripSlash (a ++ b) = a ++ rstripSlash b := by
  by_cases hb : rstripSlash b = []
  · have hb2 : b.reverse.dropWhile (fun c => c == '/') = [] :=
      List.reverse_eq_nil_iff.1 hb
    unfold rstripSlash
    simp only [List.reverse_append, List.dropWhile_append, hb2, List.isEmpty_nil,
      if_true]
    rw [pyDropWhile_eq_self a.reverse (fun c hc => by
      simp only [beq_eq_false_iff_ne, ne_eq]
      intro he
      rw [he] at hc
      exact h (List.mem_reverse.1 hc))]
    simp
  · exact rstripSlash_append_of_ne a b hb

theorem rstripSlash_prefixOf (l : List Char) : rstripSlash l <+: l := by
  obtain ⟨t, ht⟩ := List.dropWhile_suffix (l := l.reverse) (fun c => c == '/')
  exact ⟨t.reverse, by rw [rstripSlash, ← List.reverse_append, ht, List.reverse_reverse]⟩

theorem splitFirst_not_mem (sep : Char) (l : List Char) (h : sep ∉ l) :
    splitFirst sep l = (l, []) := by
  unfold splitFirst
  rw [pyTakeWhile_all l (fun c hc => by
      simp only [bne_iff_ne, ne_eq]
      intro he; rw [he] at hc; exact h hc),
    pyDropWhile_all l (fun c hc => by
      simp only [bne_iff_ne, ne_eq]
      intro he; rw [he] at hc; exact h hc)]
  rfl

theorem splitFirst_append (sep : Char) (l₁ l₂ : List Char) (h : sep ∉ l₁) :
    splitFirst sep (l₁ ++ sep :: l₂) = (l₁, l₂) := by
  unfold splitFirst
  rw [pyTakeWhile_append l₁ (sep :: l₂) (fun c hc => by
      simp only [bne_iff_ne, ne_eq]
      intro he; rw [he] at hc; exact h hc),
    pyDropWhile_append l₁ (sep :: l₂) (fun c hc => by
      simp only [bne_iff_ne, ne_eq]
      intro he; rw [he] at hc; exact h hc),
    List.takeWhile_cons_of_neg (by simp), List.dropWhile_cons_of_neg (by simp)]
  simp
/-- `rstripSlash` commutes with lower-casing. -/
theorem rstripSlash_lowerStr (l : List Char) :
    rstripSlash (lowerStr l) = lowerStr (rstripSlash l) := by
  have hp : (fun c => lowerChar c == '/') = (fun c : Char => c == '/') := by
    funext c
    by_cases h : c = '/'
    · rw [h]
      decide
    · have h2 : lowerChar c ≠ '/' := fun he => h ((lowerChar_eq_low_iff c '/' (by decide)).1 he)
      rw [beq_eq_false_iff_ne.2 h2, beq_eq_false_iff_ne.2 h]
  unfold rstripSlash lowerStr
  rw [← List.map_reverse, List.dropWhile_map, ← List.map_reverse]
  rw [show (fun c => c == '/') ∘ lowerChar = fun c : Char => c == '/' from hp]

theorem lowerStr_eq_self_of_image (l : List Char) (m : List Char) (h : l = lowerStr m) :
    lowerStr l = l := by
  rw [h, lowerStr_idem]

/-- The scheme returned by `pySplitScheme` on the reassembled URL. -/
theorem pyDrop_scheme (s R : List Char) :
    (s ++ ':' :: R).drop (s.length + 1) = R := by
  rw [show s ++ ':' :: R = (s ++ [':']) ++ R by simp,
    show s.length + 1 = (s ++ [':']).length by simp,
    List.drop_left]

theorem pySplitScheme_recon (a : Char) (t R : List Char)
    (ha : a.isAlpha = true) (ht : t.all isSchemeChar = true) :
    pySplitScheme ((a :: t) ++ ':' :: R) = (lowerStr (a :: t), R) := by
  have hsc : ':' ∉ a :: t := scheme_no_char a t ha ht ':' (Or.inl (by decide))
  have h1 : ((a :: t) ++ ':' :: R).takeWhile (fun c => c != ':') = a :: t := by
    rw [pyTakeWhile_append (a :: t) (':' :: R) (fun c hc => by
        simp only [bne_iff_ne, ne_eq]
        intro he; rw [he] at hc; exact hsc hc),
      List.takeWhile_cons_of_neg (by simp)]
    simp
  unfold pySplitScheme
  simp only [h1]
  rw [if_pos (by simp only [List.length_append, List.length_cons]; omega)]
  rw [if_pos (by rw [ha, ht]; rfl)]
  rw [pyDrop_scheme]

theorem pySplitNetloc_recon (X : List Char) :
    pySplitNetloc ('/' :: '/' :: X) =
      (X.takeWhile (fun c => !isNetlocDelim c), X.dropWhile (fun c => !isNetlocDelim c)) := rfl

theorem splitFirst_cons_self (sep : Char) (l : List Char) :
    splitFirst sep (sep :: l) = ([], l) := by
  have h := splitFirst_append sep [] l (List.not_mem_nil sep)
  simpa using h

/-- `pyUrlsplit` recovers the components from a reassembled
`scheme://netloc path ?query` string. -/
theorem pyUrlsplit_recon (a : Char) (t n pa q : List Char)
    (ha : a.isAlpha = true) (ht : t.all isSchemeChar = true)
    (hn : n.all (fun c => !isNetlocDelim c) = true)
    (hpa : pa = [] ∨ ∃ r, pa = '/' :: r)
    (hpaQ : '?' ∉ pa) (hpaH : '#' ∉ pa) (hqH : '#' ∉ q) :
    pyUrlsplit ((a :: t) ++ ':' :: '/' :: '/' ::
        (n ++ (pa ++ (if q = [] then [] else '?' :: q))))
      = ⟨lowerStr (a :: t), n, pa, [], q, []⟩ := by
  have hn' : ∀ c ∈ n, (!isNetlocDelim c) = true := List.all_eq_true.1 hn
  unfold pyUrlsplit
  rw [pySplitScheme_recon a t _ ha ht]
  simp only []
  rw [pySplitNetloc_recon]
  simp only []
  by_cases hq : q = []
  · rw [if_pos hq]
    rcases hpa with rfl | ⟨r, rfl⟩
    · rw [List.append_nil, List.append_nil, pyTakeWhile_all n hn', pyDropWhile_all n hn']
      rw [hq]
      rfl
    · rw [List.append_nil, pyTakeWhile_append n _ hn', pyDropWhile_append n _ hn',
        List.takeWhile_cons_of_neg (by decide), List.dropWhile_cons_of_neg (by decide),
        List.append_nil,
        splitFirst_not_mem '#' _ hpaH]
      simp only []
      rw [splitFirst_not_mem '?' _ hpaQ]
      rw [hq]
  · rw [if_neg hq]
    rcases hpa with rfl | ⟨r, rfl⟩
    · rw [List.nil_append, pyTakeWhile_append n _ hn', pyDropWhile_append n _ hn',
        List.takeWhile_cons_of_neg (by decide), List.dropWhile_cons_of_neg (by decide),
        List.append_nil]
      rw [splitFirst_not_mem '#' _ (by
          intro hm
          rcases List.mem_cons.1 hm with h | h
          · exact absurd h (by decide)
          · exact hqH h)]
      simp only []
      rw [splitFirst_cons_self]
    · rw [pyTakeWhile_append n _ hn', pyDropWhile_append n _ hn',
        List.cons_append, List.takeWhile_cons_of_neg (by decide),
        List.dropWhile_cons_of_neg (by decide), List.append_nil]
      rw [← List.cons_append]
      rw [splitFirst_not_mem '#' _ (by
          intro hm
          rcases List.mem_append.1 hm with h | h
          · exact hpaH h
          · rcases List.mem_cons.1 h with h2 | h2
            · exact absurd h2 (by decide)
            · exact hqH h2)]
      simp only []
      rw [splitFirst_append '?' _ q hpaQ]

/-- `pyUrlparse` on the reassembled string, when the path re-splits no
parameters. -/
theorem pyUrlparse_recon (a : Char) (t n pa q : List Char)
    (ha : a.isAlpha = true) (ht : t.all isSchemeChar = true)
    (hn : n.all (fun c => !isNetlocDelim c) = true)
    (hpa : pa = [] ∨ ∃ r, pa = '/' :: r)
    (hpaQ : '?' ∉ pa) (hpaH : '#' ∉ pa) (hqH : '#' ∉ q)
    (hparams : pySplitParams pa = (pa, [])) :
    pyUrlparse ((a :: t) ++ ':' :: '/' :: '/' ::
        (n ++ (pa ++ (if q = [] then [] else '?' :: q))))
      = ⟨lowerStr (a :: t), n, pa, [], q, []⟩ := by
  unfold pyUrlparse
  rw [pyUrlsplit_recon a t n pa q ha ht hn hpa hpaQ hpaH hqH]
  simp only []
  rw [hparams]

theorem pySplitNetloc_all (url : List Char) :
    ((pySplitNetloc url).1).all (fun c => !isNetlocDelim c) = true := by
  unfold pySplitNetloc
  split
  · simp only []
    refine List.all_eq_true.2 (fun x hx => ?_)
    exact @List.mem_takeWhile_imp _ (fun c => !isNetlocDelim c) _ _ hx
  · rfl

theorem pyUrlsplit_netloc_all (url : List Char) :
    ((pyUrlsplit url).netloc).all (fun c => !isNetlocDelim c) = true :=
  pySplitNetloc_all _

theorem pyUrlsplit_path_noQ (url : List Char) : '?' ∉ (pyUrlsplit url).path := by
  intro hm
  have := List.mem_takeWhile_imp hm
  simp at this

theorem pyUrlsplit_path_noH (url : List Char) : '#' ∉ (pyUrlsplit url).path := by
  intro hm
  have h2 := List.Sublist.mem hm (List.takeWhile_sublist _)
  have := List.mem_takeWhile_imp h2
  simp at this

theorem pyUrlsplit_query_noH (url : List Char) : '#' ∉ (pyUrlsplit url).query := by
  intro hm
  have h1 := List.drop_subset 1 _ hm
  have h2 := List.Sublist.mem h1 (List.dropWhile_sublist _)
  have := List.mem_takeWhile_imp h2
  simp at this

theorem afterLastSlash_subset (l : List Char) : ∀ c ∈ afterLastSlash l, c ∈ l := by
  intro c hc
  unfold afterLastSlash at hc
  rw [List.mem_reverse] at hc
  exact List.mem_reverse.1 (List.Sublist.mem hc (List.takeWhile_sublist _))

theorem pySplitParams_fst_subset (l : List Char) : ∀ c ∈ (pySplitParams l).1, c ∈ l := by
  intro c hc
  unfold pySplitParams at hc
  simp only [] at hc
  repeat' split at hc
  all_goals try simp only [] at hc
  all_goals first
    | exact hc
    | (rcases List.mem_append.1 hc with h | h
       · exact List.take_subset _ _ h
       · exact afterLastSlash_subset l c (List.Sublist.mem h (List.takeWhile_sublist _)))
    | exact List.Sublist.mem hc (List.takeWhile_sublist _)

theorem pyUrlparse_path_noQ (url : List Char) : '?' ∉ (pyUrlparse url).path :=
  fun hm => pyUrlsplit_path_noQ url (pySplitParams_fst_subset _ _ hm)

theorem pyUrlparse_path_noH (url : List Char) : '#' ∉ (pyUrlparse url).path :=
  fun hm => pyUrlsplit_path_noH url (pySplitParams_fst_subset _ _ hm)

theorem pyUrlparse_query_noH (url : List Char) : '#' ∉ (pyUrlparse url).query :=
  pyUrlsplit_query_noH url

theorem lowerStr_nil : lowerStr [] = [] := rfl

/-- `normalize_url` written as one reassembled string, for a known scheme. -/
theorem normalize_url_shape (url : List Char) (a : Char) (t : List Char)
    (hsch : (pyUrlparse url).scheme = a :: t) (hlow : lowerStr (a :: t) = a :: t) :
    normalize_url url = rstripSlash ((a :: t) ++ ':' :: '/' :: '/' ::
      (lowerStr (pyUrlparse url).netloc ++ (lowerStr (pyUrlparse url).path ++
        (if (pyUrlparse url).query = [] then []
         else '?' :: lowerStr (pyUrlparse url).query)))) := by
  unfold normalize_url
  simp only []
  by_cases hq : (pyUrlparse url).query = []
  · rw [if_pos hq, if_pos hq]
    congr 1
    rw [hsch]
    simp only [lowerStr_append, lowerStr_cons, lowerStr_nil, lowerChar_sep.1,
      lowerChar_sep.2.1, hlow]
    simp [List.append_assoc]
  · rw [if_neg hq, if_neg hq]
    congr 1
    rw [hsch]
    simp only [lowerStr_append, lowerStr_cons, lowerStr_nil, lowerChar_sep.1,
      lowerChar_sep.2.1, lowerChar_sep.2.2, hlow]
    simp [List.append_assoc]

theorem netloc_no_slash (n : List Char)
    (hn : n.all (fun c => !isNetlocDelim c) = true) : '/' ∉ n := by
  intro hm
  have := List.all_eq_true.1 hn '/' hm
  simp [isNetlocDelim] at this

theorem not_mem_rstripSlash (l : List Char) (c : Char) (h : c ∉ l) :
    c ∉ rstripSlash l :=
  fun hm => h (List.IsPrefix.mem hm (rstripSlash_prefixOf l))

theorem rstripSlash_shape (pa : List Char) (h : pa = [] ∨ ∃ r, pa = '/' :: r) :
    rstripSlash pa = [] ∨ ∃ r, rstripSlash pa = '/' :: r := by
  rcases h with rfl | ⟨r, rfl⟩
  · left; rfl
  · obtain ⟨m, hm⟩ := rstripSlash_prefixOf ('/' :: r)
    cases he : rstripSlash ('/' :: r) with
    | nil => left; rfl
    | cons x xs =>
      right
      rw [he, List.cons_append] at hm
      injection hm with h1 h2
      exact ⟨xs, by rw [h1]⟩

theorem rstripSlash_scheme_slashes (a : Char) (t X : List Char)
    (h : rstripSlash X ≠ []) :
    rstripSlash ((a :: t) ++ ':' :: '/' :: '/' :: X) =
      (a :: t) ++ ':' :: '/' :: '/' :: rstripSlash X := by
  have h2 := rstripSlash_append_of_ne ((a :: t) ++ [':', '/', '/']) X h
  simpa [List.append_assoc] using h2

theorem rstrip_noq_form (a : Char) (t n pa : List Char)
    (hnoslash : '/' ∉ n) (hne : n ≠ [] ∨ rstripSlash pa ≠ []) :
    rstripSlash ((a :: t) ++ ':' :: '/' :: '/' :: (n ++ (pa ++ []))) =
      (a :: t) ++ ':' :: '/' :: '/' :: (n ++ (rstripSlash pa ++ [])) := by
  rw [List.append_nil, List.append_nil]
  rw [rstripSlash_scheme_slashes a t _ (by
      rw [rstripSlash_append_no_slash n pa hnoslash]
      intro hc
      rcases List.append_eq_nil.1 hc with ⟨h1, h2⟩
      rcases hne with h | h
      · exact h h1
      · exact h h2),
    rstripSlash_append_no_slash n pa hnoslash]

theorem rstrip_q_form (a : Char) (t n pa q2 : List Char) (h : rstripSlash q2 ≠ []) :
    rstripSlash ((a :: t) ++ ':' :: '/' :: '/' :: (n ++ (pa ++ ('?' :: q2)))) =
      (a :: t) ++ ':' :: '/' :: '/' :: (n ++ (pa ++ ('?' :: rstripSlash q2))) := by
  have h2 := rstripSlash_append_of_ne
    ((a :: t) ++ ':' :: '/' :: '/' :: (n ++ (pa ++ ['?']))) q2 h
  simpa [List.append_assoc] using h2

/-- The scheme `pySplitScheme` returns is empty or the lower-casing of a
well-formed scheme. -/
theorem pySplitScheme_shape (url : List Char) :
    (pySplitScheme url).1 = [] ∨
    ∃ a t, (pySplitScheme url).1 = lowerStr (a :: t) ∧ a.isAlpha = true ∧
      t.all isSchemeChar = true := by
  unfold pySplitScheme
  simp only []
  cases hpre : url.takeWhile (fun c => c != ':') with
  | nil =>
    split
    · left; rfl
    · left; rfl
  | cons a t =>
    split
    · split
      · rename_i heq
        exact absurd heq (by simp)
      · rename_i a2 t2 heq
        injection heq with h1 h2
        subst h1
        subst h2
        split
        · rename_i hcond
          have hc2 : a.isAlpha = true ∧ t.all isSchemeChar = true := by simpa using hcond
          right
          exact ⟨a, t, rfl, hc2.1, hc2.2⟩
        · left; rfl
    · left; rfl

/-- C6 counterexample: `normalize_url` is *not* idempotent: on
`http://a.com/x?/` it keeps a query that consists of slashes only, returning
`http://a.com/x?`; renormalising that output then finds an *empty* query and
drops the `?`, returning `http://a.com/x`. -/
theorem c6_counterexample_query_of_slashes :
    normalize_url (normalize_url ("http://a.com/x?/").data) ≠
      normalize_url ("http://a.com/x?/").data := by decide

/-- C6 (amended): `normalize_url` is idempotent on every URL whose parse has
a non-empty scheme, whose (lower-cased) path is empty or starts with `'/'`,
and whose query survives normalisation: with no query, the host or the
slash-stripped path must be non-empty and the stripped path must re-split no
`;`-parameters; with a query, the lower-cased slash-stripped query must be
non-empty and the path must re-split no `;`-parameters. -/
theorem c6_normalize_url_idempotent_amended (u : List Char)
    (hs : (pyUrlparse u).scheme ≠ [])
    (hpa : lowerStr (pyUrlparse u).path = [] ∨
      (lowerStr (pyUrlparse u).path).head? = some '/')
    (hq : if (pyUrlparse u).query = []
          then (lowerStr (pyUrlparse u).netloc ≠ [] ∨
                rstripSlash (lowerStr (pyUrlparse u).path) ≠ []) ∧
            pySplitParams (rstripSlash (lowerStr (pyUrlparse u).path)) =
              (rstripSlash (lowerStr (pyUrlparse u).path), [])
          else rstripSlash (lowerStr (pyUrlparse u).query) ≠ [] ∧
            pySplitParams (lowerStr (pyUrlparse u).path) =
              (lowerStr (pyUrlparse u).path, [])) :
    normalize_url (normalize_url u) = normalize_url u := by
  rcases pySplitScheme_shape u with h0 | ⟨a0, t0, hsch0, ha0, ht0⟩
  · exact absurd h0 hs
  have hsch : (pyUrlparse u).scheme = lowerChar a0 :: lowerStr t0 := hsch0
  set a := lowerChar a0 with ha_def
  set t := lowerStr t0 with ht_def
  have ha : a.isAlpha = true := isAlpha_lowerChar a0 ha0
  have htt : t.all isSchemeChar = true := all_scheme_lowerStr t0 ht0
  have hlow : lowerStr (a :: t) = a :: t := by
    rw [ha_def, ht_def, ← lowerStr_cons, lowerStr_idem]
  set n' := lowerStr (pyUrlparse u).netloc with hn_def
  set pa' := lowerStr (pyUrlparse u).path with hpa_def
  set q' := lowerStr (pyUrlparse u).query with hq_def
  have hn : n'.all (fun c => !isNetlocDelim c) = true :=
    all_not_delim_lowerStr _ (pyUrlsplit_netloc_all u)
  have hnoslash : '/' ∉ n' := netloc_no_slash n' hn
  have hpaQ : '?' ∉ pa' := not_mem_lowerStr _ '?' (by decide) (pyUrlparse_path_noQ u)
  have hpaH : '#' ∉ pa' := not_mem_lowerStr _ '#' (by decide) (pyUrlparse_path_noH u)
  have hqH : '#' ∉ q' := not_mem_lowerStr _ '#' (by decide) (pyUrlparse_query_noH u)
  have hlown : lowerStr n' = n' := by rw [hn_def, lowerStr_idem]
  have hpa2 : pa' = [] ∨ ∃ r, pa' = '/' :: r := by
    rcases hpa with h | h
    · exact Or.inl h
    · right
      cases hp : pa' with
      | nil =>
        rw [hp] at h
        simp at h
      | cons x xs =>
        rw [hp] at h
        simp only [List.head?_cons, Option.some.injEq] at h
        exact ⟨xs, by rw [h]⟩
  have hv := normalize_url_shape u a t hsch hlow
  by_cases hqe : (pyUrlparse u).query = []
  · rw [if_pos hqe] at hq
    obtain ⟨hne, hparams⟩ := hq
    rw [hqe] at hv
    simp only [eq_self_iff_true, if_true] at hv
    set pa2 := rstripSlash pa' with hpa2_def
    have hlowpa2 : lowerStr pa2 = pa2 := by
      rw [hpa2_def, hpa_def, rstripSlash_lowerStr, lowerStr_idem]
    have hstrip := rstrip_noq_form a t n' pa' hnoslash hne
    rw [hstrip] at hv
    have hparse := pyUrlparse_recon a t n' pa2 [] ha htt hn
      (rstripSlash_shape pa' hpa2)
      (not_mem_rstripSlash pa' '?' hpaQ) (not_mem_rstripSlash pa' '#' hpaH)
      (List.not_mem_nil '#') hparams
    simp only [eq_self_iff_true, if_true] at hparse
    rw [hv]
    have hshape2 := normalize_url_shape
      ((a :: t) ++ ':' :: '/' :: '/' :: (n' ++ (pa2 ++ []))) a t
      (by rw [hparse]; exact hlow) hlow
    rw [hparse] at hshape2
    simp only [] at hshape2
    rw [hlown, hlowpa2] at hshape2
    simp only [eq_self_iff_true, if_true] at hshape2
    rw [hshape2]
    have hne2 : n' ≠ [] ∨ rstripSlash pa2 ≠ [] := by
      rcases hne with h | h
      · exact Or.inl h
      · right
        rw [hpa2_def, rstripSlash_idem]
        exact h
    rw [rstrip_noq_form a t n' pa2 hnoslash hne2]
    rw [hpa2_def, rstripSlash_idem]
  · rw [if_neg hqe] at hq
    obtain ⟨hqne, hparams⟩ := hq
    rw [if_neg hqe] at hv
    set q2 := rstripSlash q' with hq2_def
    have hlowq2 : lowerStr q2 = q2 := by
      rw [hq2_def, hq_def, rstripSlash_lowerStr, lowerStr_idem]
    have hq2H : '#' ∉ q2 := not_mem_rstripSlash q' '#' hqH
    have hstrip := rstrip_q_form a t n' pa' q' hqne
    rw [hstrip] at hv
    have hparse := pyUrlparse_recon a t n' pa' q2 ha htt hn hpa2 hpaQ hpaH hq2H hparams
    rw [if_neg (by rw [hq2_def]; exact hqne)] at hparse
    rw [hv]
    have hshape2 := normalize_url_shape
      ((a :: t) ++ ':' :: '/' :: '/' :: (n' ++ (pa' ++ ('?' :: q2)))) a t
      (by rw [hparse]; exact hlow) hlow
    rw [hparse] at hshape2
    simp only [] at hshape2
    have hlowpa : lowerStr pa' = pa' := by rw [hpa_def, lowerStr_idem]
    rw [hlown, hlowpa, hlowq2,
      if_neg (by rw [hq2_def]; exact hqne)] at hshape2
    rw [hshape2]
    have hq2ne : rstripSlash q2 ≠ [] := by
      rw [hq2_def, rstripSlash_idem]
      exact hqne
    rw [rstrip_q_form a t n' pa' q2 hq2ne]
    rw [hq2_def, rstripSlash_idem]


/-- C6 (amended), witness: idempotence at `HTTP://Example.COM/Path/`. -/
theorem c6_normalize_url_idempotent_amended_witness :
    normalize_url (normalize_url ("HTTP://Example.COM/Path/").data) =
      normalize_url ("HTTP://Example.COM/Path/").data :=
  c6_normalize_url_idempotent_amended ("HTTP://Example.COM/Path/").data
    (by decide) (by decide) (by decide)

end Crawl
